import Mathlib

/-!
# Provokely front end: `static/js/forms.js`

A shallow embedding of the form helpers of `static/js/forms.js`: the e-mail
test `isValidEmail`, the transport helper `postForm`, the live validation
listener `attachEmailValidation`, the three submit handlers (newsletter, modal,
contact) and the display policy of the e-mail modal (gate, triggers, dismissal).

Conventions of the embedding.

* A JavaScript string is a Lean `String`; its characters are read through
  `String.data`.  Lean characters are Unicode scalar values, so a lone
  surrogate code unit is not representable; an astral character is one
  character here and two code units in JavaScript, both outside every class
  the pattern of `isValidEmail` names, so the test answers alike.
* `Date.now()` is an `Int` (epoch milliseconds, of magnitude at most 8.64e15).
  Numbers are the doubles of the host: integers are kept exactly, every other
  value is rounded to the nearest double, and `Number(s)` reads the numeric
  literals of the host language.
* A storage area is a list of key and value pairs.
* An `async` handler is two atomic steps: the part that runs up to the
  `await` (it issues the request), and the continuation that runs when the
  request settles.  Other events may come between the two.
* A page is the document of one load, with all the elements the script looks
  up present in the markup.  A load starts from a fresh document and keeps the
  storage areas.  Calls to the collaborators (`bsModal.show()`, `fetch`,
  `setTimeout`) are recorded in the page.
-/

namespace Provokely

/-! ## Characters and strings of the host language -/

/-- Code points matched by `\s` in a JavaScript pattern, which are also the ones
removed by `String.prototype.trim`: tab, line feed, vertical tab, form feed,
carriage return, space, U+00A0, U+1680, U+2000 to U+200A, U+2028, U+2029,
U+202F, U+205F, U+3000 and U+FEFF. -/
def isWhiteSpace (c : Char) : Bool :=
  let n := c.toNat
  n == 9 || n == 10 || n == 11 || n == 12 || n == 13 || n == 32 || n == 160 ||
  n == 5760 || (8192 ≤ n && n ≤ 8202) || n == 8232 || n == 8233 || n == 8239 ||
  n == 8287 || n == 12288 || n == 65279

/-- Model of `String.prototype.toLowerCase` on a list of characters: the letters
`A`..`Z` are mapped to `a`..`z`.  Case mappings outside ASCII are not
modelled. -/
def toLowerCase (s : List Char) : List Char := s.map Char.toLower

/-- Model of `String.prototype.toUpperCase`, ASCII letters only. -/
def toUpperCase (s : List Char) : List Char := s.map Char.toUpper

/-- Model of `String.prototype.trim`: white space is removed at both ends. -/
def trim (s : List Char) : List Char :=
  ((s.dropWhile isWhiteSpace).reverse.dropWhile isWhiteSpace).reverse

/-! ## Patterns -/

/-- Abstract syntax of the patterns used by the program.  The source only
writes literals, negated classes, sequences and `+`; the other constructors
are needed to take derivatives. -/
inductive Regex where
  | empty : Regex
  | eps : Regex
  | lit (c : Char) : Regex
  | notIn (cls : Char → Bool) : Regex
  | seq (r s : Regex) : Regex
  | alt (r s : Regex) : Regex
  | star (r : Regex) : Regex

namespace Regex

/-- The postfix `+` of the pattern language: one or more repetitions. -/
def plus (r : Regex) : Regex := seq r (star r)

/-- Whether the pattern accepts the empty string. -/
def nullable : Regex → Bool
  | empty => false
  | eps => true
  | lit _ => false
  | notIn _ => false
  | seq r s => nullable r && nullable s
  | alt r s => nullable r || nullable s
  | star _ => true

/-- Brzozowski derivative: the pattern for what may follow the character `c`. -/
def deriv : Regex → Char → Regex
  | empty, _ => empty
  | eps, _ => empty
  | lit a, c => if a = c then eps else empty
  | notIn cls, c => if cls c then empty else eps
  | seq r s, c => if nullable r then alt (seq (deriv r c) s) (deriv s c) else seq (deriv r c) s
  | alt r s, c => alt (deriv r c) (deriv s c)
  | star r, c => seq (deriv r c) (star r)

/-- Whole-input test of an anchored pattern `^r$`: `RegExp.prototype.test` on a
pattern without flags, whose `^` and `$` are the two ends of the input. -/
def test (r : Regex) (s : List Char) : Bool := nullable (s.foldl deriv r)

/-- Declarative meaning of a pattern: the strings it denotes. -/
inductive Matches : Regex → List Char → Prop
  | eps : Matches eps []
  | lit (c : Char) : Matches (lit c) [c]
  | notIn (cls : Char → Bool) (c : Char) : cls c = false → Matches (notIn cls) [c]
  | seq {r s : Regex} {x y : List Char} : Matches r x → Matches s y → Matches (seq r s) (x ++ y)
  | altL {r s : Regex} {x : List Char} : Matches r x → Matches (alt r s) x
  | altR {r s : Regex} {x : List Char} : Matches s x → Matches (alt r s) x
  | starNil {r : Regex} : Matches (star r) []
  | starCons {r : Regex} {x y : List Char} : Matches r x → Matches (star r) y → Matches (star r) (x ++ y)

end Regex

/-! ## `isValidEmail` -/

/-- The class `\s@` that the pattern negates: white space or `@`. -/
def spaceOrAt (c : Char) : Bool := isWhiteSpace c || c == '@'

/-- The pattern `/^[^\s@]+@[^\s@]+\.[^\s@]+$/` (the anchors are in `Regex.test`). -/
def emailPattern : Regex :=
  .seq (.plus (.notIn spaceOrAt))
    (.seq (.lit '@')
      (.seq (.plus (.notIn spaceOrAt))
        (.seq (.lit '.') (.plus (.notIn spaceOrAt)))))

/-- Source: `isValidEmail(value)`, `forms.js` lines 7-9. -/
def isValidEmail (value : String) : Bool :=
  emailPattern.test (toLowerCase value.data)

/-! ## Numbers and their string forms -/

/-- The values of the host number type (IEEE 754 binary64) that the gate computes
with.  An integer-valued number is `int n`, kept exactly: rounding an integer to
the nearest double never moves it across a safe integer, so every comparison the
gate makes between `Date.now()` values (magnitude at most 8.64e15) and integers
comes out as in the host.  A finite double that is not an integer is
`frac num den`, the fraction `num / den` with `den` a power of two. -/
inductive JSNumber where
  | int (n : Int) : JSNumber
  | nan : JSNumber
  | inf (negative : Bool) : JSNumber
  | frac (num : Int) (den : Nat) : JSNumber
  deriving DecidableEq

/-- Nearest integer to `a / d`, a tie going to the even one. -/
def roundHalfEven (a d : Nat) : Nat :=
  let q := a / d
  let r := a % d
  if 2 * r < d then q else if d < 2 * r then q + 1 else if q % 2 = 0 then q else q + 1

/-- Position of the leading bit, the fuel bounding the recursion. -/
def log2Fuel : Nat → Nat → Nat
  | 0, _ => 0
  | fuel + 1, n => if n < 2 then 0 else log2Fuel fuel (n / 2) + 1

/-- Whether `2 ^ e ≤ a / d`. -/
def atLeastPow2 (a d : Nat) (e : Int) : Bool :=
  if 0 ≤ e then decide (d * 2 ^ e.toNat ≤ a) else decide (d ≤ a * 2 ^ (-e).toNat)

/-- The binary exponent of `a / d` for positive `a` and `d`: the `e` with
`2 ^ e ≤ a / d < 2 ^ (e + 1)`. -/
def binaryExponent (a d : Nat) : Int :=
  let e0 : Int := (log2Fuel a a : Int) - (log2Fuel d d : Int)
  if atLeastPow2 a d e0 then e0 else e0 - 1

/-- The double nearest to the positive fraction `a / d` (round to nearest, ties
to even): the multiples of `2 ^ (e - 52)` are the doubles around it, with `e`
its binary exponent, not below -1022; from `2 ^ 1024 - 2 ^ 970` on the result is
`Infinity`. -/
def nearestDouble (a d : Nat) : JSNumber :=
  let e := max (binaryExponent a d) (-1022)
  let k := e - 52
  let n := if 0 ≤ k then roundHalfEven a (d * 2 ^ k.toNat) else roundHalfEven (a * 2 ^ (-k).toNat) d
  if 1023 < e ∨ (e = 1023 ∧ n = 2 ^ 53) then .inf false
  else if 0 ≤ k then .int (n * 2 ^ k.toNat)
  else if n % 2 ^ (-k).toNat = 0 then .int (n / 2 ^ (-k).toNat)
  else .frac n (2 ^ (-k).toNat)

namespace JSNumber

/-- Unary minus. -/
def neg : JSNumber → JSNumber
  | int n => int (-n)
  | nan => nan
  | inf s => inf (!s)
  | frac n d => frac (-n) d

end JSNumber

/-- The number for the exact fraction `num / den` (`den` positive): the integer
itself when the fraction is one, its nearest double otherwise. -/
def roundToDouble (num : Int) (den : Nat) : JSNumber :=
  if num % (den : Int) = 0 then .int (num / (den : Int))
  else if 0 < num then nearestDouble num.natAbs den
  else (nearestDouble num.natAbs den).neg

namespace JSNumber

/-- The operator `-` on numbers: the exact difference, rounded; `NaN` is
absorbing and so is the difference of equal infinities. -/
def sub : JSNumber → JSNumber → JSNumber
  | int a, int b => int (a - b)
  | int a, frac n d => roundToDouble (a * d - n) d
  | frac n d, int b => roundToDouble (n - b * d) d
  | frac n d, frac m e => roundToDouble (n * e - m * d) (d * e)
  | int _, inf t => inf (!t)
  | frac _ _, inf t => inf (!t)
  | inf s, int _ => inf s
  | inf s, frac _ _ => inf s
  | inf s, inf t => if s = t then nan else inf s
  | nan, _ => nan
  | _, nan => nan

/-- The operator `<` on numbers: every comparison with `NaN` is false. -/
def lt : JSNumber → JSNumber → Bool
  | int a, int b => decide (a < b)
  | int a, frac n d => decide (a * d < n)
  | frac n d, int b => decide (n < b * d)
  | frac n d, frac m e => decide (n * e < m * d)
  | int _, inf t => !t
  | frac _ _, inf t => !t
  | inf s, int _ => s
  | inf s, frac _ _ => s
  | inf s, inf t => s && !t
  | nan, _ => false
  | _, nan => false

/-- The operator `>=` on numbers: false when either side is `NaN`, and the
negation of `<` otherwise. -/
def ge : JSNumber → JSNumber → Bool
  | nan, _ => false
  | _, nan => false
  | x, y => !(lt x y)

end JSNumber

/-- Model of `String(n)` for an integral number `n`: the decimal digits, after
a minus sign when `n` is negative. -/
def jsString (n : Int) : String :=
  String.mk (if n < 0 then '-' :: Nat.toDigits 10 n.natAbs else Nat.toDigits 10 n.natAbs)

/-- Reads a run of decimal digits from the left, `acc` being the value of the
digits already read; `none` when a character is not a digit. -/
def parseDigits : List Char → Nat → Option Nat
  | [], acc => some acc
  | c :: cs, acc =>
    if 48 ≤ c.toNat ∧ c.toNat ≤ 57 then parseDigits cs (10 * acc + (c.toNat - 48)) else none

/-- An unsigned decimal integer literal: one digit at least. -/
def parseUnsigned (ds : List Char) : Option Nat :=
  if ds.isEmpty then none else parseDigits ds 0

/-- A decimal digit. -/
def isDecimalDigit (c : Char) : Bool := decide (48 ≤ c.toNat ∧ c.toNat ≤ 57)

/-- The exponent part of a decimal literal: absent, or `e` or `E`, an optional
sign and one digit at least. -/
def parseExponent : List Char → Option Int
  | [] => some 0
  | c :: rest =>
    if c = 'e' ∨ c = 'E' then
      match rest with
      | '-' :: ds => (parseUnsigned ds).map fun n => -(n : Int)
      | '+' :: ds => (parseUnsigned ds).map fun n => (n : Int)
      | ds => (parseUnsigned ds).map fun n => (n : Int)
    else none

/-- The number for the exact value `m * 10 ^ x`. -/
def decimalValue (m : Nat) (x : Int) : JSNumber :=
  if 0 ≤ x then .int (m * 10 ^ x.toNat) else roundToDouble m (10 ^ (-x).toNat)

/-- An unsigned decimal literal: digits, then optionally a point and digits (one
of the two runs may be empty), then optionally an exponent part. -/
def parseDecimal (cs : List Char) : JSNumber :=
  let ip := cs.takeWhile isDecimalDigit
  match cs.dropWhile isDecimalDigit with
  | '.' :: r2 =>
    let fp := r2.takeWhile isDecimalDigit
    if ip.isEmpty && fp.isEmpty then .nan
    else
      match parseDigits (ip ++ fp) 0, parseExponent (r2.dropWhile isDecimalDigit) with
      | some m, some e => decimalValue m (e - fp.length)
      | _, _ => .nan
  | r1 =>
    if ip.isEmpty then .nan
    else
      match parseDigits ip 0, parseExponent r1 with
      | some m, some e => decimalValue m e
      | _, _ => .nan

/-- The value of a digit in a base up to 16, `none` for another character. -/
def radixDigit (base : Nat) (c : Char) : Option Nat :=
  let n := c.toNat
  let v := if 48 ≤ n ∧ n ≤ 57 then n - 48
    else if 97 ≤ n ∧ n ≤ 102 then n - 87
    else if 65 ≤ n ∧ n ≤ 70 then n - 55
    else 16
  if v < base then some v else none

/-- Reads a run of digits of the base from the left. -/
def parseRadix (base : Nat) : List Char → Nat → Option Nat
  | [], acc => some acc
  | c :: cs, acc =>
    match radixDigit base c with
    | some v => parseRadix base cs (base * acc + v)
    | none => none

/-- A binary, octal or hexadecimal integer literal: `0b`, `0o` or `0x` in either
case and one digit at least. -/
def parseNonDecimal : List Char → Option Nat
  | '0' :: p :: ds =>
    if ds.isEmpty then none
    else if p = 'x' ∨ p = 'X' then parseRadix 16 ds 0
    else if p = 'o' ∨ p = 'O' then parseRadix 8 ds 0
    else if p = 'b' ∨ p = 'B' then parseRadix 2 ds 0
    else none
  | _ => none

/-- An unsigned literal that may follow a sign: a run of digits, `Infinity`, or
a decimal literal with a point or an exponent. -/
def parseSignless (cs : List Char) : JSNumber :=
  match parseUnsigned cs with
  | some n => .int n
  | none => if cs = "Infinity".data then .inf false else parseDecimal cs

/-- Model of `Number(s)` on a string (StringToNumber): white space is trimmed,
the empty string is `0`; then a binary, octal or hexadecimal integer literal, or
an optionally signed `Infinity` or decimal literal; everything else is `NaN`.  A
literal that is not an integer is rounded to the nearest double. -/
def jsNumber (s : String) : JSNumber :=
  match trim s.data with
  | [] => .int 0
  | '-' :: ds => (parseSignless ds).neg
  | '+' :: ds => parseSignless ds
  | ds =>
    match parseUnsigned ds with
    | some n => .int n
    | none =>
      match parseNonDecimal ds with
      | some n => .int n
      | none => parseSignless ds

/-! ## Web storage -/

/-- A storage area (`localStorage` or `sessionStorage`): keys with their string
values, each key once. -/
abbrev Store := List (String × String)

/-- Model of `Storage.getItem(key)`: `none` is `null`. -/
def getItem (s : Store) (key : String) : Option String := s.lookup key

/-- Model of `Storage.setItem(key, value)`. -/
def setItem (s : Store) (key value : String) : Store :=
  (key, value) :: s.filter (fun kv => kv.1 != key)

/-- Source: `storageKeySubmitted`, line 67. -/
def storageKeySubmitted : String := "provokely_modal_submitted"

/-- Source: `storageKeyClosedAt`, line 68. -/
def storageKeyClosedAt : String := "provokely_modal_closed_at"

/-- Source: `sessionKeyShown`, line 69. -/
def sessionKeyShown : String := "provokely_modal_shown_session"

/-- Source: `Number(localStorage.getItem(storageKeyClosedAt) || 0)`, line 73.
The operand of `Number` is `0` when the item is `null` or the empty string
(both falsy), and the stored string otherwise. -/
def closedAtOf (localStorage : Store) : JSNumber :=
  match getItem localStorage storageKeyClosedAt with
  | none => .int 0
  | some s => if s = "" then .int 0 else jsNumber s

/-- Source: the three early returns of the modal block, lines 71-74.  The value
is `true` when none of them is taken, so that the block goes on to create the
modal and arm its triggers. -/
def gateOpen (sessionStorage localStorage : Store) (now : Int) : Bool :=
  if getItem sessionStorage sessionKeyShown = some "1" then false
  else if getItem localStorage storageKeySubmitted = some "1" then false
  else
    let closedAt := closedAtOf localStorage
    if ((JSNumber.int now).sub closedAt).lt (.int (24 * 60 * 60 * 1000)) then false
    else true

/-! ## Forms -/

/-- The three forms driven by `forms.js`. -/
inductive FormId where
  | newsletter : FormId
  | modal : FormId
  | contact : FormId
  deriving DecidableEq

/-- The message elements and the submit control of one form.  `errHidden` and
`okHidden` say that the element carries the class `d-none`. -/
structure Feedback where
  errHidden : Bool
  errText : String
  okHidden : Bool
  okText : String
  disabled : Bool
  deriving DecidableEq

/-- Modelled from the spec: the page markup is not part of the sources; a form
starts idle, with both messages hidden and empty and the control enabled. -/
def Feedback.initial : Feedback :=
  { errHidden := true, errText := "", okHidden := true, okText := "", disabled := false }

/-- A form with a single e-mail input (newsletter, modal).  The field `pending`
counts the continuations of its submit handler that wait on a request. -/
structure EmailForm where
  ui : Feedback
  email : String
  pending : Nat
  deriving DecidableEq

/-- The contact form: name, e-mail and message inputs. -/
structure ContactForm where
  ui : Feedback
  name : String
  email : String
  message : String
  pending : Nat
  deriving DecidableEq

/-- Modelled from the spec: the page markup is not part of the sources; its
inputs carry no preset value. -/
def EmailForm.initial : EmailForm := { ui := Feedback.initial, email := "", pending := 0 }

/-- Modelled from the spec: the page markup is not part of the sources; its
inputs carry no preset value. -/
def ContactForm.initial : ContactForm :=
  { ui := Feedback.initial, name := "", email := "", message := "", pending := 0 }

/-- Modelled from the spec: `form.reset()` puts every input back to the value of
the markup, which is not part of the sources; the spec has the fields cleared. -/
def EmailForm.reset (f : EmailForm) : EmailForm := { f with email := "" }

/-- Modelled from the spec: `form.reset()` puts every input back to the value of
the markup, which is not part of the sources; the spec has the fields cleared. -/
def ContactForm.reset (f : ContactForm) : ContactForm :=
  { f with name := "", email := "", message := "" }

/-- A call of `fetch` made by `postForm`: the form whose `action` is the target
and the entries of its `FormData`. -/
structure Request where
  form : FormId
  data : List (String × String)
  deriving DecidableEq

/-- How a `fetch` settles: the promise rejects, or it resolves to a response
with a status and, when the body parses as JSON, that body. -/
inductive FetchOutcome where
  | rejected : FetchOutcome
  | response (status : Nat) (json : Option String) : FetchOutcome
  deriving DecidableEq

/-- Model of `Response.ok`: the status is in the range 200-299. -/
def FetchOutcome.ok : FetchOutcome → Bool
  | .rejected => false
  | .response status _ => decide (200 ≤ status ∧ status ≤ 299)

/-- The value `postForm` resolves to: the parsed body, or the object
`success: true` that replaces a body that does not parse. -/
inductive PostValue where
  | body (json : String) : PostValue
  | implicitSuccess : PostValue
  deriving DecidableEq

/-- Source: `postForm(url, data)`, lines 11-19, after its `fetch` has settled
with `o`: a rejection propagates, a response that is not `ok` throws
`Network error`, otherwise `res.json()` with its `catch` fallback. -/
def postForm (o : FetchOutcome) : Except String PostValue :=
  match o with
  | .rejected => .error "fetch rejected"
  | .response status json =>
    if !(FetchOutcome.response status json).ok then .error "Network error"
    else match json with
      | some j => .ok (.body j)
      | none => .ok .implicitSuccess

/-- Source: the `input` listener installed by `attachEmailValidation`, lines
22-26, run on the current value of the input. -/
def emailInputListener (value : String) (ui : Feedback) : Feedback :=
  let ok := isValidEmail value
  let ui := { ui with errHidden := ok }
  if !ok then { ui with errText := "Please enter a valid email address." } else ui

/-- What a `setTimeout` of the modal block will run. -/
inductive TimerAction where
  | showModal : TimerAction
  | hideModal : TimerAction
  deriving DecidableEq

/-! ## The page -/

/-- State of one tab: the two storage areas, the three forms of the loaded
document, the closure variables of the modal block, and a record of the calls
made to the collaborators (`bsModal.show()`, `fetch`, `setTimeout`).  The flag
`armed` says that the modal block of this load ran past its early returns, so
that its timer, its `mouseleave`, `hidden.bs.modal` and `submit` listeners
exist. -/
structure Page where
  sessionStorage : Store
  localStorage : Store
  newsletter : EmailForm
  modal : EmailForm
  contact : ContactForm
  armed : Bool
  scheduled : Bool
  showCalls : Nat
  requests : List Request
  timers : List (TimerAction × Nat)
  deriving DecidableEq

/-- Source: `showModal()`, lines 78-82. -/
def showModal (p : Page) : Page :=
  if p.scheduled then p
  else
    { p with
      scheduled := true
      showCalls := p.showCalls + 1
      sessionStorage := setItem p.sessionStorage sessionKeyShown "1" }

/-- Source: the modal block from its gate on, lines 71-88, at load time `now`:
return early, or create the modal, clear `scheduled` and start the 30 s timer
(the listeners it also installs are the handlers below, guarded by `armed`). -/
def modalInit (now : Int) (p : Page) : Page :=
  if gateOpen p.sessionStorage p.localStorage now then
    { p with armed := true, scheduled := false, timers := (.showModal, 30000) :: p.timers }
  else p

/-- A page load in the same tab at time `now`: a fresh document (forms as in the
markup, no listener, no timer, no continuation), on which the script runs.
The storage areas and the record of `show` and `fetch` calls carry over. -/
def load (now : Int) (p : Page) : Page :=
  modalInit now
    { sessionStorage := p.sessionStorage
      localStorage := p.localStorage
      newsletter := EmailForm.initial
      modal := EmailForm.initial
      contact := ContactForm.initial
      armed := false
      scheduled := false
      showCalls := p.showCalls
      requests := p.requests
      timers := [] }

/-- Source: `setTimeout(showModal, 30000)`, line 84: the callback, which exists
on an armed page only. -/
def onTimer (p : Page) : Page :=
  if p.armed then showModal p else p

/-- Source: the `mouseleave` listener, lines 86-88. -/
def onMouseLeave (clientY : Int) (p : Page) : Page :=
  if p.armed then (if clientY ≤ 0 then showModal p else p) else p

/-- Source: the `hidden.bs.modal` listener, lines 90-92, at time `now`. -/
def onHidden (now : Int) (p : Page) : Page :=
  if p.armed then
    { p with localStorage := setItem p.localStorage storageKeyClosedAt (jsString now) }
  else p

/-! ## Submit handlers

Each handler is the pair of its synchronous part (`...Submit`, up to the
`await postForm(...)`, whose `fetch` is recorded in `requests`) and of its
continuation (`...Settle`, from the outcome of that `fetch` to the end of the
`finally` block).  The entries of `FormData` are recorded by input; the hidden
anti-forgery input is left out. -/

/-- Source: the newsletter `submit` listener, lines 37-44. -/
def newsletterSubmit (p : Page) : Page :=
  let f := p.newsletter
  if !isValidEmail f.email then
    { p with newsletter := { f with ui := { f.ui with errHidden := false } } }
  else
    let data := [("email", f.email)]
    { p with
      newsletter :=
        { f with
          ui := { f.ui with okHidden := true, errHidden := true, disabled := true }
          pending := f.pending + 1 }
      requests := { form := .newsletter, data := data } :: p.requests }

/-- Source: the newsletter `submit` listener after the `await`, lines 44-53.
Without a waiting continuation nothing runs. -/
def newsletterSettle (o : FetchOutcome) (p : Page) : Page :=
  let f := p.newsletter
  if f.pending = 0 then p
  else
    let f := { f with pending := f.pending - 1 }
    let f :=
      match postForm o with
      | .ok _ =>
        EmailForm.reset
          { f with ui := { f.ui with okText := "Subscribed! Check your inbox.", okHidden := false } }
      | .error _ =>
        { f with
          ui := { f.ui with errText := "Something went wrong. Please try again.", errHidden := false } }
    { p with newsletter := { f with ui := { f.ui with disabled := false } } }

/-- Source: the modal `submit` listener, lines 94-101.  The listener is
installed by an armed block only; on another page the event reaches no code of
this program. -/
def modalSubmit (p : Page) : Page :=
  if !p.armed then p
  else
    let f := p.modal
    if !isValidEmail f.email then
      { p with modal := { f with ui := { f.ui with errHidden := false } } }
    else
      let data := [("email", f.email)]
      { p with
        modal :=
          { f with
            ui := { f.ui with okHidden := true, errHidden := true, disabled := true }
            pending := f.pending + 1 }
        requests := { form := .modal, data := data } :: p.requests }

/-- Source: the modal `submit` listener after the `await`, lines 101-111. -/
def modalSettle (o : FetchOutcome) (p : Page) : Page :=
  let f := p.modal
  if f.pending = 0 then p
  else
    let f := { f with pending := f.pending - 1 }
    let p :=
      match postForm o with
      | .ok _ =>
        { p with
          modal := { f with ui := { f.ui with okText := "Thanks! Check your inbox.", okHidden := false } }
          localStorage := setItem p.localStorage storageKeySubmitted "1"
          timers := (.hideModal, 1200) :: p.timers }
      | .error _ =>
        { p with
          modal := { f with ui := { f.ui with errText := "Please try again later.", errHidden := false } } }
    { p with modal := { p.modal with ui := { p.modal.ui with disabled := false } } }

/-- Source: the contact `submit` listener, lines 125-134. -/
def contactSubmit (p : Page) : Page :=
  let f := p.contact
  if (trim f.name.data).isEmpty then
    { p with contact := { f with ui := { f.ui with errText := "Please enter your name.", errHidden := false } } }
  else if !isValidEmail f.email then
    { p with
      contact :=
        { f with ui := { f.ui with errText := "Please enter a valid email address.", errHidden := false } } }
  else if (trim f.message.data).isEmpty then
    { p with contact := { f with ui := { f.ui with errText := "Please enter a message.", errHidden := false } } }
  else
    let data := [("name", f.name), ("email", f.email), ("message", f.message)]
    { p with
      contact :=
        { f with
          ui := { f.ui with okHidden := true, errHidden := true, disabled := true }
          pending := f.pending + 1 }
      requests := { form := .contact, data := data } :: p.requests }

/-- Source: the contact `submit` listener after the `await`, lines 134-143. -/
def contactSettle (o : FetchOutcome) (p : Page) : Page :=
  let f := p.contact
  if f.pending = 0 then p
  else
    let f := { f with pending := f.pending - 1 }
    let f :=
      match postForm o with
      | .ok _ =>
        ContactForm.reset
          { f with ui := { f.ui with okText := "Thanks! We will get back to you soon.", okHidden := false } }
      | .error _ =>
        { f with
          ui := { f.ui with errText := "Something went wrong. Please try again later.", errHidden := false } }
    { p with contact := { f with ui := { f.ui with disabled := false } } }

/-- The `submit` event of a form. -/
def submit : FormId → Page → Page
  | .newsletter => newsletterSubmit
  | .modal => modalSubmit
  | .contact => contactSubmit

/-- The request of a form settles with outcome `o`. -/
def settle : FormId → FetchOutcome → Page → Page
  | .newsletter => newsletterSettle
  | .modal => modalSettle
  | .contact => contactSettle

/-- The user edits the e-mail input of a form: the input takes the new value
and its `input` listener runs (it is installed before the gate, line 65, so on
every page). -/
def typeEmail (f : FormId) (value : String) (p : Page) : Page :=
  match f with
  | .newsletter =>
    { p with newsletter := { p.newsletter with email := value, ui := emailInputListener value p.newsletter.ui } }
  | .modal =>
    { p with modal := { p.modal with email := value, ui := emailInputListener value p.modal.ui } }
  | .contact =>
    { p with contact := { p.contact with email := value, ui := emailInputListener value p.contact.ui } }

/-! ## Events -/

/-- What can happen in a tab during one browser session. -/
inductive Event where
  | load (now : Int) : Event
  | timer : Event
  | mouseleave (clientY : Int) : Event
  | hidden (now : Int) : Event
  | typeEmail (f : FormId) (value : String) : Event
  | typeName (value : String) : Event
  | typeMessage (value : String) : Event
  | submit (f : FormId) : Event
  | settle (f : FormId) (o : FetchOutcome) : Event
  deriving DecidableEq

/-- One event on a page. -/
def step (p : Page) : Event → Page
  | .load now => load now p
  | .timer => onTimer p
  | .mouseleave y => onMouseLeave y p
  | .hidden now => onHidden now p
  | .typeEmail f v => typeEmail f v p
  | .typeName v => { p with contact := { p.contact with name := v } }
  | .typeMessage v => { p with contact := { p.contact with message := v } }
  | .submit f => submit f p
  | .settle f o => settle f o p

/-- A sequence of events, from left to right. -/
def run (p : Page) (es : List Event) : Page := es.foldl step p

/-- Events of a tab over several browser sessions: an event of the current
session, or the end of the session followed by a first load in a new one, whose
`sessionStorage` is empty. -/
inductive SiteEvent where
  | inSession (e : Event) : SiteEvent
  | newSession (now : Int) : SiteEvent
  deriving DecidableEq

/-- One event over sessions. -/
def siteStep (p : Page) : SiteEvent → Page
  | .inSession e => step p e
  | .newSession now => load now { p with sessionStorage := [] }

/-- A sequence of events over sessions. -/
def siteRun (p : Page) (es : List SiteEvent) : Page := es.foldl siteStep p

/-- A page as a first visit finds it: empty storage, the document of the markup
and the script run at time `now`. -/
def firstVisit (now : Int) : Page :=
  load now
    { sessionStorage := [], localStorage := [], newsletter := EmailForm.initial,
      modal := EmailForm.initial, contact := ContactForm.initial, armed := false,
      scheduled := false, showCalls := 0, requests := [], timers := [] }

/-! ## Views of a form used in the statements -/

/-- The message elements and control of a form. -/
def uiOf (f : FormId) (p : Page) : Feedback :=
  match f with
  | .newsletter => p.newsletter.ui
  | .modal => p.modal.ui
  | .contact => p.contact.ui

/-- The values of the inputs of a form. -/
def valuesOf (f : FormId) (p : Page) : List String :=
  match f with
  | .newsletter => [p.newsletter.email]
  | .modal => [p.modal.email]
  | .contact => [p.contact.name, p.contact.email, p.contact.message]

/-- The continuations of a form that wait on a request. -/
def pendingOf (f : FormId) (p : Page) : Nat :=
  match f with
  | .newsletter => p.newsletter.pending
  | .modal => p.modal.pending
  | .contact => p.contact.pending

/-- Whether the `submit` listener of a form is installed on the page: always for
the newsletter and contact forms, on an armed page for the modal form. -/
def hasSubmitListener (f : FormId) (p : Page) : Bool :=
  match f with
  | .modal => p.armed
  | _ => true

/-- Client-side validation as the spec words it: the e-mail is invalid, or, on
the contact form, the trimmed name or the trimmed message is empty. -/
def failsValidation (f : FormId) (p : Page) : Bool :=
  match f with
  | .newsletter => !isValidEmail p.newsletter.email
  | .modal => !isValidEmail p.modal.email
  | .contact =>
    (trim p.contact.name.data).isEmpty || !isValidEmail p.contact.email ||
      (trim p.contact.message.data).isEmpty

/-! ## The e-mail pattern in words -/

/-- A run `[^\s@]+` in words: one character at least, none of them white space
or `@`. -/
def Plain (s : List Char) : Prop := s ≠ [] ∧ ∀ c ∈ s, spaceOrAt c = false

/-- A run of one or more characters that are not white space. -/
def NonSpace (s : List Char) : Prop := s ≠ [] ∧ ∀ c ∈ s, isWhiteSpace c = false

/-- The pattern of the code in words: a plain run, `@`, a plain run, `.`, a
plain run. -/
def EmailShape (s : List Char) : Prop :=
  ∃ l d t : List Char, s = l ++ '@' :: (d ++ '.' :: t) ∧ Plain l ∧ Plain d ∧ Plain t

/-- The pattern as the spec words it: a plain run, `@`, a plain run, `.`, and a
run of one or more characters that are not white space. -/
def SpecEmailShape (s : List Char) : Prop :=
  ∃ l d t : List Char, s = l ++ '@' :: (d ++ '.' :: t) ∧ Plain l ∧ Plain d ∧ NonSpace t

/-! ## The four states of a form in words -/

/-- Idle: both messages hidden and the control enabled. -/
def Feedback.isIdle (ui : Feedback) : Bool := ui.errHidden && ui.okHidden && !ui.disabled

/-- Submitting: the control is disabled. -/
def Feedback.isSubmitting (ui : Feedback) : Bool := ui.disabled

/-- Success: the success message is visible. -/
def Feedback.isSuccess (ui : Feedback) : Bool := !ui.okHidden

/-- Error: the error message is visible. -/
def Feedback.isError (ui : Feedback) : Bool := !ui.errHidden

/-- How many of the four states a form is in. -/
def Feedback.stateCount (ui : Feedback) : Nat :=
  [ui.isIdle, ui.isSubmitting, ui.isSuccess, ui.isError].count true

/-- The text that the `catch` block of each submit handler puts in the error
element (lines 49, 107, 139). -/
def failureText : FormId → String
  | .newsletter => "Something went wrong. Please try again."
  | .modal => "Please try again later."
  | .contact => "Something went wrong. Please try again later."

/-- Events that keep the error message of form `f` apart from its other states:
a `submit` of `f` comes while the control is enabled; an input that leaves an
invalid address in the e-mail field of `f`, and a `submit` of `f` that fails
validation, come while the success message is hidden and the control is
enabled.  Events of the other forms and of the modal block are unrestricted. -/
def admissible (f : FormId) (p : Page) : Event → Bool
  | .typeEmail g v =>
    g != f || isValidEmail v || ((uiOf f p).okHidden && !(uiOf f p).disabled)
  | .submit g =>
    g != f || (!(uiOf f p).disabled && (!failsValidation f p || (uiOf f p).okHidden))
  | _ => true

/-- Every event of the sequence is admissible on the page it meets. -/
def admissibleRun (f : FormId) : Page → List Event → Bool
  | _, [] => true
  | p, e :: es => admissible f p e && admissibleRun f (step p e) es

/-- The text that each submit handler puts in the success element (lines 45,
102, 135). -/
def successText : FormId → String
  | .newsletter => "Subscribed! Check your inbox."
  | .modal => "Thanks! Check your inbox."
  | .contact => "Thanks! We will get back to you soon."

/-- Events after which a request of form `f` is still awaited on the page: the
page is not loaded again and no request of `f` settles. -/
def keepsWaiting (f : FormId) : Event → Bool
  | .load _ => false
  | .settle g _ => g != f
  | _ => true

/-- Events that do not show the error message of form `f`: no input leaves an
invalid address in its e-mail field and no `submit` of `f` is dispatched. -/
def leavesErrorHidden (f : FormId) : Event → Bool
  | .typeEmail g v => g != f || isValidEmail v
  | .submit g => g != f
  | _ => true

/-! ## Invariants used in the proofs -/

/-- Relative to a starting count `c`: no `show` yet, or one `show`, the session
flag set and the guard of `showModal` closed on an armed page. -/
def ShownInv (c : Nat) (q : Page) : Prop :=
  q.showCalls = c ∨
    (q.showCalls = c + 1 ∧ getItem q.sessionStorage sessionKeyShown = some "1" ∧
      (q.armed = true → q.scheduled = true))


/-- After a successful modal submission and a later load: the submitted flag is
"1" and the page is not armed. -/
def SubmittedInv (q : Page) : Prop :=
  getItem q.localStorage storageKeySubmitted = some "1" ∧ q.armed = false

/-- The stored dismissal time is a number not before `t`. -/
def ClosedSince (t : Int) (q : Page) : Prop :=
  ∃ u : Int, t ≤ u ∧ closedAtOf q.localStorage = .int u

/-- A character map `f` keeps every test of the pattern: a literal is hit by
`f c` exactly when it is hit by `c`, and a class holds `f c` exactly when it
holds `c`. -/
def Regex.Respects (f : Char → Char) : Regex → Prop
  | .empty => True
  | .eps => True
  | .lit a => ∀ c : Char, a = f c ↔ a = c
  | .notIn cls => ∀ c : Char, cls (f c) = cls c
  | .seq r s => Regex.Respects f r ∧ Regex.Respects f s
  | .alt r s => Regex.Respects f r ∧ Regex.Respects f s
  | .star r => Regex.Respects f r

/-- Between submissions the control is enabled and at most one message is
visible; during a submission the control is disabled and both are hidden. -/
def OneStateInv (f : FormId) (p : Page) : Prop :=
  (pendingOf f p = 0 ∧ (uiOf f p).disabled = false ∧
      ((uiOf f p).okHidden = true ∨ (uiOf f p).errHidden = true)) ∨
    (pendingOf f p = 1 ∧ (uiOf f p).disabled = true ∧ (uiOf f p).okHidden = true ∧
      (uiOf f p).errHidden = true)

/-! ## Required-field messages in words -/

/-- The message for an empty required field as the spec words it:
`Please enter your <field>.` with the name of the field. -/
def requiredFieldText (field : String) : String := "Please enter your " ++ field ++ "."

/-! ## Correctness of the pattern test -/

namespace Regex

theorem nullable_of_matches {r : Regex} {x : List Char} (h : Matches r x) :
    x = [] → nullable r = true := by
  induction h with
  | eps => intro _; rfl
  | lit c => intro hx; simp at hx
  | notIn cls c _ => intro hx; simp at hx
  | seq _ _ ih1 ih2 =>
    intro hx
    rw [List.append_eq_nil] at hx
    simp [nullable, ih1 hx.1, ih2 hx.2]
  | altL _ ih => intro hx; simp [nullable, ih hx]
  | altR _ ih => intro hx; simp [nullable, ih hx]
  | starNil => intro _; rfl
  | starCons _ _ _ _ => intro _; rfl

theorem matches_nil_of_nullable : ∀ (r : Regex), nullable r = true → Matches r []
  | empty, h => by simp [nullable] at h
  | eps, _ => Matches.eps
  | lit _, h => by simp [nullable] at h
  | notIn _, h => by simp [nullable] at h
  | seq r s, h => by
    simp only [nullable, Bool.and_eq_true] at h
    have h1 := matches_nil_of_nullable r h.1
    have h2 := matches_nil_of_nullable s h.2
    simpa using Matches.seq h1 h2
  | alt r s, h => by
    simp only [nullable, Bool.or_eq_true] at h
    rcases h with h | h
    · exact Matches.altL (matches_nil_of_nullable r h)
    · exact Matches.altR (matches_nil_of_nullable s h)
  | star _, _ => Matches.starNil

theorem nullable_iff (r : Regex) : nullable r = true ↔ Matches r [] :=
  ⟨matches_nil_of_nullable r, fun h => nullable_of_matches h rfl⟩

theorem matches_of_deriv : ∀ (r : Regex) (c : Char) (x : List Char),
    Matches (deriv r c) x → Matches r (c :: x)
  | empty, c, x, h => by cases h
  | eps, c, x, h => by cases h
  | lit a, c, x, h => by
    simp only [deriv] at h
    split at h
    · rename_i hac
      cases h
      subst hac
      exact Matches.lit a
    · cases h
  | notIn cls, c, x, h => by
    simp only [deriv] at h
    split at h
    · cases h
    · rename_i hc
      cases h
      exact Matches.notIn cls c (by simpa using hc)
  | seq r s, c, x, h => by
    simp only [deriv] at h
    split at h
    · rename_i hn
      cases h with
      | altL h1 =>
        cases h1 with
        | seq ha hb => exact Matches.seq (matches_of_deriv r c _ ha) hb
      | altR h2 =>
        have h0 := matches_nil_of_nullable r hn
        simpa using Matches.seq h0 (matches_of_deriv s c x h2)
    · cases h with
      | seq ha hb => exact Matches.seq (matches_of_deriv r c _ ha) hb
  | alt r s, c, x, h => by
    simp only [deriv] at h
    cases h with
    | altL h1 => exact Matches.altL (matches_of_deriv r c x h1)
    | altR h2 => exact Matches.altR (matches_of_deriv s c x h2)
  | star r, c, x, h => by
    simp only [deriv] at h
    cases h with
    | seq ha hb => exact Matches.starCons (matches_of_deriv r c _ ha) hb

theorem deriv_of_matches {r : Regex} {y : List Char} (h : Matches r y) :
    ∀ (c : Char) (x : List Char), y = c :: x → Matches (deriv r c) x := by
  induction h with
  | eps => intro c x hx; simp at hx
  | lit a =>
    intro c x hx
    simp only [List.cons.injEq] at hx
    obtain ⟨rfl, rfl⟩ := hx
    simpa [deriv] using Matches.eps
  | notIn cls a ha =>
    intro c x hx
    simp only [List.cons.injEq] at hx
    obtain ⟨rfl, rfl⟩ := hx
    simpa [deriv, ha] using Matches.eps
  | @seq r s u v hu hv ih1 ih2 =>
    intro c x hx
    cases u with
    | nil =>
      have hn : nullable r = true := nullable_of_matches hu rfl
      simp only [List.nil_append] at hx
      simp only [deriv, hn, if_true]
      exact Matches.altR (ih2 c x hx)
    | cons a u =>
      simp only [List.cons_append, List.cons.injEq] at hx
      obtain ⟨rfl, rfl⟩ := hx
      have h1 := Matches.seq (ih1 a u rfl) hv
      simp only [deriv]
      split
      · exact Matches.altL h1
      · exact h1
  | altL _ ih => intro c x hx; exact Matches.altL (ih c x hx)
  | altR _ ih => intro c x hx; exact Matches.altR (ih c x hx)
  | starNil => intro c x hx; simp at hx
  | @starCons r u v hu hv ih1 ih2 =>
    intro c x hx
    cases u with
    | nil =>
      simp only [List.nil_append] at hx
      exact ih2 c x hx
    | cons a u =>
      simp only [List.cons_append, List.cons.injEq] at hx
      obtain ⟨rfl, rfl⟩ := hx
      simpa [deriv] using Matches.seq (ih1 a u rfl) hv

theorem deriv_iff (r : Regex) (c : Char) (x : List Char) :
    Matches (deriv r c) x ↔ Matches r (c :: x) :=
  ⟨matches_of_deriv r c x, fun h => deriv_of_matches h c x rfl⟩

/-- The derivative test decides the declarative meaning. -/
theorem test_iff : ∀ (s : List Char) (r : Regex), test r s = true ↔ Matches r s
  | [], r => by simpa [test] using nullable_iff r
  | c :: s, r => by
    have ih := test_iff s (deriv r c)
    simp only [test, List.foldl_cons] at ih ⊢
    rw [ih, deriv_iff]

end Regex

/-! ## Storage and number lemmas -/

theorem getItem_setItem_same (s : Store) (k v : String) : getItem (setItem s k v) k = some v := by
  simp [getItem, setItem, List.lookup]

theorem getItem_setItem_other (s : Store) (k v k2 : String) (h : k2 ≠ k) :
    getItem (setItem s k v) k2 = getItem s k2 := by
  have hb : (k2 == k) = false := by simpa using h
  simp only [getItem, setItem, List.lookup, hb]
  induction s with
  | nil => rfl
  | cons kv s ih =>
    obtain ⟨a, b⟩ := kv
    by_cases hak : a = k
    · subst hak
      have hb2 : (k2 == a) = false := by simpa using h
      simp [List.filter, List.lookup, hb2, ih]
    · have hne : (a != k) = true := by simpa using hak
      simp only [List.filter, hne, List.lookup]
      cases hk : (k2 == a) with
      | true => rfl
      | false => exact ih

theorem isWhiteSpace_of_printable (c : Char) (h : 33 ≤ c.toNat ∧ c.toNat ≤ 126) :
    isWhiteSpace c = false := by
  simp only [isWhiteSpace, Bool.or_eq_false_iff, beq_eq_false_iff_ne, Bool.and_eq_false_iff,
    decide_eq_false_iff_not]
  omega

theorem trim_eq_self (s : List Char) (h : ∀ c ∈ s, isWhiteSpace c = false) : trim s = s := by
  have key : ∀ l : List Char, (∀ c ∈ l, isWhiteSpace c = false) → l.dropWhile isWhiteSpace = l := by
    intro l hl
    cases l with
    | nil => rfl
    | cons a l => simp [List.dropWhile, hl a (by simp)]
  unfold trim
  rw [key s h, key s.reverse (by simpa using h), List.reverse_reverse]

theorem digitChar_digit (m : Nat) (h : m < 10) :
    48 ≤ (Nat.digitChar m).toNat ∧ (Nat.digitChar m).toNat ≤ 57 ∧
      (Nat.digitChar m).toNat - 48 = m := by
  interval_cases m <;> decide

theorem parseDigits_toDigitsCore : ∀ (f n : Nat) (ds : List Char), n < f →
    parseDigits (Nat.toDigitsCore 10 f n ds) 0 = parseDigits ds n
  | 0, n, ds, h => by omega
  | f + 1, n, ds, h => by
    have hd := digitChar_digit (n % 10) (Nat.mod_lt _ (by decide))
    have hstep : parseDigits (Nat.digitChar (n % 10) :: ds) (n / 10) = parseDigits ds n := by
      simp only [parseDigits, hd.1, hd.2.1, and_self, if_true, hd.2.2]
      congr 1
      omega
    simp only [Nat.toDigitsCore]
    split
    · rename_i h0
      rw [← hstep, h0]
    · rename_i h0
      rw [parseDigits_toDigitsCore f (n / 10) _ (by omega)]
      exact hstep

theorem mem_toDigitsCore : ∀ (f n : Nat) (ds : List Char) (c : Char),
    c ∈ Nat.toDigitsCore 10 f n ds → c ∈ ds ∨ (48 ≤ c.toNat ∧ c.toNat ≤ 57)
  | 0, n, ds, c, h => by
    simp only [Nat.toDigitsCore] at h
    exact Or.inl h
  | f + 1, n, ds, c, h => by
    have hd := digitChar_digit (n % 10) (Nat.mod_lt _ (by decide))
    simp only [Nat.toDigitsCore] at h
    split at h
    · rcases List.mem_cons.1 h with h | h
      · subst h
        exact Or.inr ⟨hd.1, hd.2.1⟩
      · exact Or.inl h
    · rcases mem_toDigitsCore f (n / 10) _ c h with h | h
      · rcases List.mem_cons.1 h with h | h
        · subst h
          exact Or.inr ⟨hd.1, hd.2.1⟩
        · exact Or.inl h
      · exact Or.inr h

theorem toDigits_ne_nil (n : Nat) : Nat.toDigits 10 n ≠ [] := by
  have h := parseDigits_toDigitsCore (n + 1) n [] (by omega)
  intro hnil
  simp only [Nat.toDigits] at hnil
  rw [hnil] at h
  simp only [parseDigits] at h
  have hn : n = 0 := by simpa using h.symm
  subst hn
  simp [Nat.toDigitsCore] at hnil

theorem toDigits_digit (n : Nat) (c : Char) (h : c ∈ Nat.toDigits 10 n) :
    48 ≤ c.toNat ∧ c.toNat ≤ 57 := by
  rcases mem_toDigitsCore (n + 1) n [] c h with h | h
  · simp at h
  · exact h

theorem parseUnsigned_toDigits (n : Nat) : parseUnsigned (Nat.toDigits 10 n) = some n := by
  have hne := toDigits_ne_nil n
  have hemp : (Nat.toDigits 10 n).isEmpty = false := by
    cases hl : Nat.toDigits 10 n with
    | nil => exact absurd hl hne
    | cons a l => rfl
  unfold parseUnsigned
  rw [hemp]
  simpa only [Nat.toDigits, parseDigits] using parseDigits_toDigitsCore (n + 1) n [] (by omega)

/-- Reading back what `String` wrote: `Number(String(n)) = n`. -/
theorem jsNumber_jsString (n : Int) : jsNumber (jsString n) = .int n := by
  have hdig : ∀ c ∈ Nat.toDigits 10 n.natAbs, isWhiteSpace c = false := fun c hc =>
    isWhiteSpace_of_printable c (by have := toDigits_digit _ c hc; omega)
  have hpu := parseUnsigned_toDigits n.natAbs
  unfold jsNumber jsString
  by_cases hneg : n < 0
  · simp only [hneg, if_true]
    rw [trim_eq_self]
    · simp only [parseSignless, hpu, JSNumber.neg]
      congr 1
      omega
    · intro c hc
      rcases List.mem_cons.1 hc with h | h
      · subst h; decide
      · exact hdig c h
  · simp only [hneg, if_false]
    rw [trim_eq_self _ hdig]
    cases hl : Nat.toDigits 10 n.natAbs with
    | nil => exact absurd hl (toDigits_ne_nil _)
    | cons a l =>
      have ha := toDigits_digit n.natAbs a (by simp [hl])
      rw [hl] at hpu
      have h1 : a ≠ '-' := by
        intro h; subst h; revert ha; decide
      have h2 : a ≠ '+' := by
        intro h; subst h; revert ha; decide
      split
      · rename_i heq; simp at heq
      · rename_i heq
        simp only [List.cons.injEq] at heq
        exact absurd heq.1.symm (by simpa using h1.symm)
      · rename_i heq
        simp only [List.cons.injEq] at heq
        exact absurd heq.1.symm (by simpa using h2.symm)
      · simp only [hpu]
        congr 1
        omega

theorem jsString_ne_empty (n : Int) : jsString n ≠ "" := by
  unfold jsString
  intro h
  have h2 := congrArg String.data h
  simp only at h2
  split at h2
  · simp at h2
  · exact toDigits_ne_nil _ h2

/-- After a dismissal at time `t` the gate reads `closedAt = t`. -/
theorem closedAtOf_setItem (ls : Store) (t : Int) :
    closedAtOf (setItem ls storageKeyClosedAt (jsString t)) = .int t := by
  unfold closedAtOf
  rw [getItem_setItem_same]
  simp only [jsString_ne_empty, if_false]
  exact jsNumber_jsString t

/-! ## The gate of the modal block -/

/-- The gate in terms of its three tests. -/
theorem gateOpen_eq_true_iff (ss ls : Store) (now : Int) :
    gateOpen ss ls now = true ↔
      getItem ss sessionKeyShown ≠ some "1" ∧ getItem ls storageKeySubmitted ≠ some "1" ∧
        ((JSNumber.int now).sub (closedAtOf ls)).lt (.int 86400000) = false := by
  unfold gateOpen
  by_cases h1 : getItem ss sessionKeyShown = some "1"
  · simp [h1]
  · by_cases h2 : getItem ls storageKeySubmitted = some "1"
    · simp [h2]
    · simp [h1, h2]

theorem nearestDouble_ne_nan (a d : Nat) : nearestDouble a d ≠ .nan := by
  unfold nearestDouble
  simp only
  split_ifs <;> simp

theorem roundToDouble_ne_nan (num : Int) (den : Nat) : roundToDouble num den ≠ .nan := by
  unfold roundToDouble
  split
  · simp
  · split
    · exact nearestDouble_ne_nan _ _
    · have h := nearestDouble_ne_nan num.natAbs den
      cases hn : nearestDouble num.natAbs den with
      | int n => simp [JSNumber.neg]
      | nan => exact absurd hn h
      | inf s => simp [JSNumber.neg]
      | frac n d => simp [JSNumber.neg]

/-- The difference of an integer and a number is a number. -/
theorem sub_int_ne_nan (a : Int) (c : JSNumber) (hc : c ≠ .nan) : (JSNumber.int a).sub c ≠ .nan := by
  cases c with
  | int b => simp [JSNumber.sub]
  | nan => exact absurd rfl hc
  | inf s => simp [JSNumber.sub]
  | frac n d =>
    simp only [JSNumber.sub]
    exact roundToDouble_ne_nan _ _

/-- On numbers `>=` is the negation of `<`. -/
theorem ge_int_of_ne_nan (x : JSNumber) (k : Int) (hx : x ≠ .nan) :
    x.ge (.int k) = !(x.lt (.int k)) := by
  cases x with
  | int b => simp [JSNumber.ge]
  | nan => exact absurd rfl hx
  | inf s => simp [JSNumber.ge]
  | frac n d => simp [JSNumber.ge]

/-- C1 as stated fails: with the string `abc` under the key of `closedAt` and no
flag set, `Number` reads `NaN`, the test of line 74 is false and the block goes
past its gate, while `now - closedAt >= 86400000` is false as well. -/
theorem gate_decision_as_stated_fails :
    ¬ (gateOpen [] [(storageKeyClosedAt, "abc")] 100000000 = true ↔
      getItem [] sessionKeyShown ≠ some "1" ∧
        getItem [(storageKeyClosedAt, "abc")] storageKeySubmitted ≠ some "1" ∧
        ((JSNumber.int 100000000).sub (closedAtOf [(storageKeyClosedAt, "abc")])).ge
          (.int 86400000) = true) := by
  intro h
  have hg : gateOpen [] [(storageKeyClosedAt, "abc")] 100000000 = true := by decide
  have hge : ((JSNumber.int 100000000).sub (closedAtOf [(storageKeyClosedAt, "abc")])).ge
      (.int 86400000) = false := by decide
  rw [(h.1 hg).2.2] at hge
  cases hge

/-- C1, amended. Eligibility gate: with `closedAt = Number(stored || 0)` (`0`
when the key is absent, `t` when it holds `String(t)`), the modal block goes
past its gate exactly when the session flag is not "1", the submitted flag is
not "1" and the test `now - closedAt < 86400000` is false; when `closedAt` is a
number this is `now - closedAt >= 86400000`, and when the stored string is no
number (`NaN`) the test is false whatever `now` is.  A submitted flag "1" closes
the gate whatever the rest, `closedAt = now - 1000` closes it, and
`closedAt = now - 90000000` with neither flag opens it. -/
theorem gate_decision (ss ls : Store) (now : Int) :
    (gateOpen ss ls now = true ↔
      getItem ss sessionKeyShown ≠ some "1" ∧ getItem ls storageKeySubmitted ≠ some "1" ∧
        ((JSNumber.int now).sub (closedAtOf ls)).lt (.int 86400000) = false) ∧
    (closedAtOf ls ≠ .nan →
      (gateOpen ss ls now = true ↔
        getItem ss sessionKeyShown ≠ some "1" ∧ getItem ls storageKeySubmitted ≠ some "1" ∧
          ((JSNumber.int now).sub (closedAtOf ls)).ge (.int 86400000) = true)) ∧
    (closedAtOf ls = .nan →
      (gateOpen ss ls now = true ↔
        getItem ss sessionKeyShown ≠ some "1" ∧ getItem ls storageKeySubmitted ≠ some "1")) ∧
    (∀ c : Int, closedAtOf ls = .int c →
      (gateOpen ss ls now = true ↔
        getItem ss sessionKeyShown ≠ some "1" ∧ getItem ls storageKeySubmitted ≠ some "1" ∧
          now - c ≥ 86400000)) ∧
    (getItem ls storageKeyClosedAt = none → closedAtOf ls = .int 0) ∧
    (∀ t : Int, getItem ls storageKeyClosedAt = some (jsString t) → closedAtOf ls = .int t) ∧
    (getItem ls storageKeySubmitted = some "1" → gateOpen ss ls now = false) ∧
    (closedAtOf ls = .int (now - 1000) → gateOpen ss ls now = false) ∧
    (closedAtOf ls = .int (now - 90000000) → getItem ss sessionKeyShown ≠ some "1" →
      getItem ls storageKeySubmitted ≠ some "1" → gateOpen ss ls now = true) := by
  have hiff := gateOpen_eq_true_iff ss ls now
  have main : ∀ c : Int, closedAtOf ls = .int c →
      (gateOpen ss ls now = true ↔
        getItem ss sessionKeyShown ≠ some "1" ∧ getItem ls storageKeySubmitted ≠ some "1" ∧
          now - c ≥ 86400000) := by
    intro c hc
    rw [hiff, hc]
    simp only [JSNumber.sub, JSNumber.lt, decide_eq_false_iff_not, not_lt, ge_iff_le]
  refine ⟨hiff, ?_, ?_, main, ?_, ?_, ?_, ?_, ?_⟩
  · intro hc
    rw [hiff, ge_int_of_ne_nan _ _ (sub_int_ne_nan now _ hc)]
    simp
  · intro hc
    rw [hiff, hc]
    simp [JSNumber.sub, JSNumber.lt]
  · intro h
    simp [closedAtOf, h]
  · intro t h
    simp only [closedAtOf, h, jsString_ne_empty, if_false]
    exact jsNumber_jsString t
  · intro h
    cases hg : gateOpen ss ls now with
    | false => rfl
    | true => exact absurd h (hiff.1 hg).2.1
  · intro hc
    cases hg : gateOpen ss ls now with
    | false => rfl
    | true =>
      have := ((main _ hc).1 hg).2.2
      omega
  · intro hc h1 h2
    exact (main _ hc).2 ⟨h1, h2, by omega⟩

/-- Witness of C1, amended: flags unset and a timestamp 86400000 ms old open the
gate; a submitted flag, or a timestamp one second old, close it; a timestamp
90000000 ms old opens it; the stored strings `1e3`, `1000.5`, `0x10` and
`Infinity` are read as numbers, and a string that is no number leaves the gate
to the flags. -/
theorem gate_decision_witness :
    gateOpen [] [(storageKeyClosedAt, "1000")] 86401000 = true ∧
      gateOpen [] [(storageKeySubmitted, "1")] 86401000 = false ∧
      gateOpen [] [(storageKeyClosedAt, "86400000")] 86401000 = false ∧
      gateOpen [] [(storageKeyClosedAt, "1000")] 90001000 = true ∧
      gateOpen [] [(storageKeyClosedAt, "1e3")] 86400500 = false ∧
      gateOpen [] [(storageKeyClosedAt, "1000.5")] 86401000 = false ∧
      gateOpen [] [(storageKeyClosedAt, "abc")] 5 = true ∧
      gateOpen [] [(storageKeyClosedAt, "0x10")] 86400015 = false ∧
      gateOpen [] [(storageKeyClosedAt, "Infinity")] 1700000000000 = false :=
  ⟨((gate_decision [] [(storageKeyClosedAt, "1000")] 86401000).2.2.2.1 1000 (by decide)).2
      ⟨by decide, by decide, by decide⟩,
    (gate_decision [] [(storageKeySubmitted, "1")] 86401000).2.2.2.2.2.2.1 (by decide),
    (gate_decision [] [(storageKeyClosedAt, "86400000")] 86401000).2.2.2.2.2.2.2.1 (by decide),
    (gate_decision [] [(storageKeyClosedAt, "1000")] 90001000).2.2.2.2.2.2.2.2 (by decide)
      (by decide) (by decide),
    by
      have h := (gate_decision [] [(storageKeyClosedAt, "1e3")] 86400500).2.2.2.1 1000 (by decide)
      cases hg : gateOpen [] [(storageKeyClosedAt, "1e3")] 86400500 with
      | false => rfl
      | true => exact absurd (h.1 hg).2.2 (by decide),
    by
      have h := (gate_decision [] [(storageKeyClosedAt, "1000.5")] 86401000).2.1 (by decide)
      cases hg : gateOpen [] [(storageKeyClosedAt, "1000.5")] 86401000 with
      | false => rfl
      | true =>
        have h2 := (h.1 hg).2.2
        revert h2
        decide,
    ((gate_decision [] [(storageKeyClosedAt, "abc")] 5).2.2.1 (by decide)).2
      ⟨by decide, by decide⟩,
    by
      have h := (gate_decision [] [(storageKeyClosedAt, "0x10")] 86400015).2.2.2.1 16 (by decide)
      cases hg : gateOpen [] [(storageKeyClosedAt, "0x10")] 86400015 with
      | false => rfl
      | true => exact absurd (h.1 hg).2.2 (by decide),
    by
      have h := (gate_decision [] [(storageKeyClosedAt, "Infinity")] 1700000000000).2.1
        (by decide)
      cases hg : gateOpen [] [(storageKeyClosedAt, "Infinity")] 1700000000000 with
      | false => rfl
      | true =>
        have h2 := (h.1 hg).2.2
        revert h2
        decide⟩

/-! ## Display of the modal -/

/-- The form events leave the closure state of the modal block, the session
storage and the count of `show` calls alone. -/
theorem submit_frame (f : FormId) (q : Page) :
    (submit f q).showCalls = q.showCalls ∧ (submit f q).sessionStorage = q.sessionStorage ∧
      (submit f q).armed = q.armed ∧ (submit f q).scheduled = q.scheduled ∧
      (submit f q).localStorage = q.localStorage := by
  cases f
  · simp only [submit, newsletterSubmit]
    split <;> simp
  · simp only [submit, modalSubmit]
    split
    · simp
    · split <;> simp
  · simp only [submit, contactSubmit]
    split
    · simp
    · split
      · simp
      · split <;> simp

theorem settle_frame (f : FormId) (o : FetchOutcome) (q : Page) :
    (settle f o q).showCalls = q.showCalls ∧ (settle f o q).sessionStorage = q.sessionStorage ∧
      (settle f o q).armed = q.armed ∧ (settle f o q).scheduled = q.scheduled := by
  cases f
  · simp only [settle, newsletterSettle]
    split <;> simp
  · simp only [settle, modalSettle]
    split
    · simp
    · split <;> simp
  · simp only [settle, contactSettle]
    split <;> simp

theorem typeEmail_frame (f : FormId) (v : String) (q : Page) :
    (typeEmail f v q).showCalls = q.showCalls ∧ (typeEmail f v q).sessionStorage = q.sessionStorage ∧
      (typeEmail f v q).armed = q.armed ∧ (typeEmail f v q).scheduled = q.scheduled ∧
      (typeEmail f v q).localStorage = q.localStorage := by
  cases f <;> simp [typeEmail]

theorem showModal_of_scheduled (q : Page) (h : q.scheduled = true) : showModal q = q := by
  simp [showModal, h]

theorem load_fields (now : Int) (q : Page) :
    (load now q).showCalls = q.showCalls ∧ (load now q).sessionStorage = q.sessionStorage ∧
      (load now q).localStorage = q.localStorage ∧
      (load now q).armed = gateOpen q.sessionStorage q.localStorage now ∧
      (load now q).scheduled = false := by
  simp only [load, modalInit]
  split
  · rename_i h
    simp [h]
  · rename_i h
    simp [h]

theorem showModal_inv (c : Nat) (q : Page) (ha : q.armed = true) (h : ShownInv c q) :
    ShownInv c (showModal q) := by
  cases hs : q.scheduled with
  | true => rw [showModal_of_scheduled q hs]; exact h
  | false =>
    rcases h with h | ⟨_, _, h3⟩
    · right
      simp [showModal, hs, h, getItem_setItem_same]
    · rw [h3 ha] at hs
      cases hs

theorem step_inv (c : Nat) (q : Page) (e : Event) (h : ShownInv c q) : ShownInv c (step q e) := by
  cases e with
  | load now =>
    obtain ⟨h1, h2, _, h4, h5⟩ := load_fields now q
    simp only [step, ShownInv, h1, h2, h4, h5]
    rcases h with h | ⟨ha, hb, _⟩
    · exact Or.inl h
    · right
      refine ⟨ha, hb, ?_⟩
      simp [gateOpen, hb]
  | timer =>
    simp only [step, onTimer]
    split
    · rename_i ha
      exact showModal_inv c q ha h
    · exact h
  | mouseleave y =>
    simp only [step, onMouseLeave]
    split
    · rename_i ha
      split
      · exact showModal_inv c q ha h
      · exact h
    · exact h
  | hidden now =>
    simp only [step, onHidden]
    split
    · exact h
    · exact h
  | typeEmail f v =>
    obtain ⟨h1, h2, h3, h4, _⟩ := typeEmail_frame f v q
    simpa only [step, ShownInv, h1, h2, h3, h4] using h
  | typeName v => exact h
  | typeMessage v => exact h
  | submit f =>
    obtain ⟨h1, h2, h3, h4, _⟩ := submit_frame f q
    simpa only [step, ShownInv, h1, h2, h3, h4] using h
  | settle f o =>
    obtain ⟨h1, h2, h3, h4⟩ := settle_frame f o q
    simpa only [step, ShownInv, h1, h2, h3, h4] using h

theorem run_inv (c : Nat) (es : List Event) : ∀ q : Page, ShownInv c q → ShownInv c (run q es) := by
  induction es with
  | nil => intro q h; exact h
  | cons e es ih =>
    intro q h
    exact ih (step q e) (step_inv c q e h)

/-- C2. At most one display per session: over any sequence of loads, trigger
firings and form events of one session `bsModal.show()` is called at most once;
once `showModal` has displayed the modal on a page, a firing of either trigger
changes nothing, and this stays so until the next load; the first display on an
armed page sets the session flag to "1". -/
theorem shown_at_most_once (p : Page) (es : List Event) :
    (run p es).showCalls ≤ p.showCalls + 1 ∧
    (p.scheduled = true → step p .timer = p ∧ ∀ y : Int, step p (.mouseleave y) = p) ∧
    (p.scheduled = true → (∀ e ∈ es, ∀ now : Int, e ≠ .load now) → (run p es).scheduled = true) ∧
    (p.armed = true → p.scheduled = false →
      (step p .timer).showCalls = p.showCalls + 1 ∧
      getItem (step p .timer).sessionStorage sessionKeyShown = some "1" ∧
      (step p .timer).scheduled = true ∧
      ∀ y : Int, y ≤ 0 → step p (.mouseleave y) = step p .timer) := by
  refine ⟨?_, ?_, ?_, ?_⟩
  · rcases run_inv p.showCalls es p (Or.inl rfl) with h | ⟨h, _, _⟩ <;> omega
  · intro hs
    refine ⟨?_, fun y => ?_⟩
    · simp only [step, onTimer, showModal_of_scheduled p hs, ite_self]
    · simp only [step, onMouseLeave, showModal_of_scheduled p hs, ite_self]
  · intro hs hes
    induction es generalizing p with
    | nil => exact hs
    | cons e es ih =>
      refine ih (step p e) ?_ (fun e2 he2 => hes e2 (List.mem_cons_of_mem _ he2))
      have hne := hes e (List.mem_cons_self _ _)
      cases e with
      | load now => exact absurd rfl (hne now)
      | timer => simp only [step, onTimer, showModal_of_scheduled p hs, ite_self, hs]
      | mouseleave y => simp only [step, onMouseLeave, showModal_of_scheduled p hs, ite_self, hs]
      | hidden now =>
        simp only [step, onHidden]
        split <;> exact hs
      | typeEmail f v => rw [← hs]; exact (typeEmail_frame f v p).2.2.2.1
      | typeName v => exact hs
      | typeMessage v => exact hs
      | submit f => rw [← hs]; exact (submit_frame f p).2.2.2.1
      | settle f o => rw [← hs]; exact (settle_frame f o p).2.2.2
  · intro ha hs
    refine ⟨?_, ?_, ?_, fun y hy => ?_⟩
    · simp [step, onTimer, ha, showModal, hs]
    · simp [step, onTimer, ha, showModal, hs, getItem_setItem_same]
    · simp [step, onTimer, ha, showModal, hs]
    · simp [step, onTimer, onMouseLeave, ha, hy]

/-! ## Permanence of the submitted flag -/

theorem settle_localStorage (f : FormId) (o : FetchOutcome) (q : Page) :
    (settle f o q).localStorage = q.localStorage ∨
      (settle f o q).localStorage = setItem q.localStorage storageKeySubmitted "1" := by
  cases f
  · simp only [settle, newsletterSettle]
    split <;> simp
  · simp only [settle, modalSettle]
    split
    · simp
    · split <;> simp
  · simp only [settle, contactSettle]
    split <;> simp

theorem step_localStorage (q : Page) (e : Event) :
    (step q e).localStorage = q.localStorage ∨
      (step q e).localStorage = setItem q.localStorage storageKeySubmitted "1" ∨
      (∃ u : Int, e = .hidden u ∧
        (step q e).localStorage = setItem q.localStorage storageKeyClosedAt (jsString u)) := by
  cases e with
  | load now => exact Or.inl (load_fields now q).2.2.1
  | timer =>
    left
    simp only [step, onTimer, showModal]
    split
    · split <;> rfl
    · rfl
  | mouseleave y =>
    left
    simp only [step, onMouseLeave, showModal]
    split
    · split
      · split <;> rfl
      · rfl
    · rfl
  | hidden now =>
    simp only [step, onHidden]
    split
    · exact Or.inr (Or.inr ⟨now, rfl, rfl⟩)
    · exact Or.inl rfl
  | typeEmail f v => exact Or.inl (typeEmail_frame f v q).2.2.2.2
  | typeName v => exact Or.inl rfl
  | typeMessage v => exact Or.inl rfl
  | submit f => exact Or.inl (submit_frame f q).2.2.2.2
  | settle f o =>
    rcases settle_localStorage f o q with h | h
    · exact Or.inl h
    · exact Or.inr (Or.inl h)

theorem siteStep_localStorage (q : Page) (e : SiteEvent) :
    (siteStep q e).localStorage = q.localStorage ∨
      (siteStep q e).localStorage = setItem q.localStorage storageKeySubmitted "1" ∨
      (∃ u : Int, e = .inSession (.hidden u) ∧
        (siteStep q e).localStorage = setItem q.localStorage storageKeyClosedAt (jsString u)) := by
  cases e with
  | inSession e =>
    rcases step_localStorage q e with h | h | ⟨u, rfl, h⟩
    · exact Or.inl h
    · exact Or.inr (Or.inl h)
    · exact Or.inr (Or.inr ⟨u, rfl, h⟩)
  | newSession now => exact Or.inl (load_fields now _).2.2.1

theorem submitted_kept (q : Page) (e : SiteEvent)
    (h : getItem q.localStorage storageKeySubmitted = some "1") :
    getItem (siteStep q e).localStorage storageKeySubmitted = some "1" := by
  rcases siteStep_localStorage q e with h1 | h1 | ⟨u, _, h1⟩
  · rw [h1]; exact h
  · rw [h1]; exact getItem_setItem_same _ _ _
  · rw [h1, getItem_setItem_other _ _ _ _ (by decide)]; exact h

theorem gate_closed_of_submitted (ss ls : Store) (now : Int)
    (h : getItem ls storageKeySubmitted = some "1") : gateOpen ss ls now = false := by
  cases hg : gateOpen ss ls now with
  | false => rfl
  | true => exact absurd h ((gateOpen_eq_true_iff ss ls now).1 hg).2.1

/-- On a page that is not armed no event but a load changes `armed` or the count
of `show` calls. -/
theorem step_unarmed (q : Page) (e : Event) (ha : q.armed = false) (hl : ∀ now : Int, e ≠ .load now) :
    (step q e).armed = false ∧ (step q e).showCalls = q.showCalls := by
  cases e with
  | load now => exact absurd rfl (hl now)
  | timer => simp [step, onTimer, ha]
  | mouseleave y => simp [step, onMouseLeave, ha]
  | hidden now => simp [step, onHidden, ha]
  | typeEmail f v =>
    obtain ⟨h1, _, h3, _, _⟩ := typeEmail_frame f v q
    exact ⟨by rw [step, h3, ha], h1⟩
  | typeName v => exact ⟨ha, rfl⟩
  | typeMessage v => exact ⟨ha, rfl⟩
  | submit f =>
    obtain ⟨h1, _, h3, _, _⟩ := submit_frame f q
    exact ⟨by rw [step, h3, ha], h1⟩
  | settle f o =>
    obtain ⟨h1, _, h3, _⟩ := settle_frame f o q
    exact ⟨by rw [step, h3, ha], h1⟩

theorem siteStep_submittedInv (q : Page) (e : SiteEvent) (h : SubmittedInv q) :
    SubmittedInv (siteStep q e) ∧ (siteStep q e).showCalls = q.showCalls := by
  have hsub := submitted_kept q e h.1
  cases e with
  | inSession e =>
    by_cases hl : ∃ now : Int, e = .load now
    · obtain ⟨now, rfl⟩ := hl
      obtain ⟨h1, _, _, h4, _⟩ := load_fields now q
      refine ⟨⟨hsub, ?_⟩, h1⟩
      simp only [siteStep, step, h4]
      exact gate_closed_of_submitted _ _ _ h.1
    · have hl2 : ∀ now : Int, e ≠ .load now := fun now he => hl ⟨now, he⟩
      obtain ⟨h1, h2⟩ := step_unarmed q e h.2 hl2
      exact ⟨⟨hsub, h1⟩, h2⟩
  | newSession now =>
    obtain ⟨h1, _, _, h4, _⟩ := load_fields now { q with sessionStorage := [] }
    refine ⟨⟨hsub, ?_⟩, h1⟩
    simp only [siteStep, h4]
    exact gate_closed_of_submitted _ _ _ h.1

theorem siteRun_submittedInv (es : List SiteEvent) : ∀ q : Page, SubmittedInv q →
    SubmittedInv (siteRun q es) ∧ (siteRun q es).showCalls = q.showCalls := by
  induction es with
  | nil => intro q h; exact ⟨h, rfl⟩
  | cons e es ih =>
    intro q h
    obtain ⟨h1, h2⟩ := siteStep_submittedInv q e h
    obtain ⟨h3, h4⟩ := ih (siteStep q e) h1
    exact ⟨h3, h4.trans h2⟩

theorem siteRun_submitted_kept (es : List SiteEvent) : ∀ q : Page,
    getItem q.localStorage storageKeySubmitted = some "1" →
    getItem (siteRun q es).localStorage storageKeySubmitted = some "1" := by
  induction es with
  | nil => intro q h; exact h
  | cons e es ih => intro q h; exact ih (siteStep q e) (submitted_kept q e h)

theorem modalSettle_sets_submitted (status : Nat) (json : Option String) (q : Page)
    (h200 : 200 ≤ status) (h299 : status ≤ 299) (hp : 0 < q.modal.pending) :
    getItem (settle .modal (.response status json) q).localStorage storageKeySubmitted = some "1" := by
  have hne : q.modal.pending ≠ 0 := by omega
  cases json <;>
    simp [settle, modalSettle, hne, postForm, FetchOutcome.ok, h200, h299, getItem_setItem_same]

theorem modalSubmit_pending (p : Page) (ha : p.armed = true) (hv : isValidEmail p.modal.email = true) :
    0 < (submit .modal p).modal.pending := by
  simp [submit, modalSubmit, ha, hv]

/-- C3. Permanence of `submitted`: a modal submission with a valid e-mail
answered by a 2xx status stores submitted = "1"; no event, in this session or a
later one, changes the flag once it is "1"; and in every state reached after
the submission the gate is closed at every later load, which arms nothing, so
that `bsModal.show()` is never called from that load on. -/
theorem submitted_is_permanent (p : Page) (status : Nat) (json : Option String)
    (es es2 : List SiteEvent) (now : Int)
    (ha : p.armed = true) (hv : isValidEmail p.modal.email = true)
    (h200 : 200 ≤ status) (h299 : status ≤ 299) :
    getItem (settle .modal (.response status json) (submit .modal p)).localStorage
        storageKeySubmitted = some "1" ∧
    (∀ (q : Page) (e : SiteEvent), getItem q.localStorage storageKeySubmitted = some "1" →
      getItem (siteStep q e).localStorage storageKeySubmitted = some "1") ∧
    getItem (siteRun (settle .modal (.response status json) (submit .modal p)) es).localStorage
        storageKeySubmitted = some "1" ∧
    (∀ ss : Store,
      gateOpen ss (siteRun (settle .modal (.response status json) (submit .modal p)) es).localStorage
        now = false) ∧
    (siteRun (siteStep (siteRun (settle .modal (.response status json) (submit .modal p)) es)
        (.inSession (.load now))) es2).showCalls =
      (siteRun (settle .modal (.response status json) (submit .modal p)) es).showCalls ∧
    (siteRun (siteStep (siteRun (settle .modal (.response status json) (submit .modal p)) es)
        (.newSession now)) es2).showCalls =
      (siteRun (settle .modal (.response status json) (submit .modal p)) es).showCalls := by
  have h1 := modalSettle_sets_submitted status json (submit .modal p) h200 h299
    (modalSubmit_pending p ha hv)
  have h2 := siteRun_submitted_kept es _ h1
  have hload : ∀ e : SiteEvent, (e = .inSession (.load now) ∨ e = .newSession now) →
      SubmittedInv (siteStep (siteRun (settle .modal (.response status json) (submit .modal p)) es) e) ∧
      (siteStep (siteRun (settle .modal (.response status json) (submit .modal p)) es) e).showCalls =
        (siteRun (settle .modal (.response status json) (submit .modal p)) es).showCalls := by
    intro e he
    have hk := submitted_kept _ e h2
    rcases he with rfl | rfl
    · obtain ⟨h1, _, _, h4, _⟩ := load_fields now
        (siteRun (settle .modal (.response status json) (submit .modal p)) es)
      refine ⟨⟨hk, ?_⟩, h1⟩
      simp only [siteStep, step, h4]
      exact gate_closed_of_submitted _ _ _ h2
    · obtain ⟨h1, _, _, h4, _⟩ := load_fields now
        { siteRun (settle .modal (.response status json) (submit .modal p)) es with
          sessionStorage := [] }
      refine ⟨⟨hk, ?_⟩, h1⟩
      simp only [siteStep, h4]
      exact gate_closed_of_submitted _ _ _ h2
  refine ⟨h1, submitted_kept, h2, fun ss => gate_closed_of_submitted ss _ now h2, ?_, ?_⟩
  · obtain ⟨hi, hc⟩ := hload _ (Or.inl rfl)
    exact ((siteRun_submittedInv es2 _ hi).2).trans hc
  · obtain ⟨hi, hc⟩ := hload _ (Or.inr rfl)
    exact ((siteRun_submittedInv es2 _ hi).2).trans hc

/-! ## Cooldown after a dismissal -/

theorem closedAtOf_setItem_submitted (ls : Store) (v : String) :
    closedAtOf (setItem ls storageKeySubmitted v) = closedAtOf ls := by
  unfold closedAtOf
  rw [getItem_setItem_other _ _ _ _ (by decide)]

theorem siteStep_closedSince (t : Int) (q : Page) (e : SiteEvent) (h : ClosedSince t q)
    (he : ∀ u : Int, e = .inSession (.hidden u) → t ≤ u) : ClosedSince t (siteStep q e) := by
  rcases siteStep_localStorage q e with h1 | h1 | ⟨u, hu, h1⟩
  · unfold ClosedSince; rw [h1]; exact h
  · unfold ClosedSince; rw [h1, closedAtOf_setItem_submitted]; exact h
  · exact ⟨u, he u hu, by rw [h1]; exact closedAtOf_setItem _ u⟩

theorem siteRun_closedSince (t : Int) (es : List SiteEvent) : ∀ q : Page, ClosedSince t q →
    (∀ u : Int, SiteEvent.inSession (.hidden u) ∈ es → t ≤ u) → ClosedSince t (siteRun q es) := by
  induction es with
  | nil => intro q h _; exact h
  | cons e es ih =>
    intro q h he
    refine ih (siteStep q e) (siteStep_closedSince t q e h ?_) ?_
    · intro u hu
      exact he u (by rw [hu]; exact List.mem_cons_self _ _)
    · intro u hu
      exact he u (List.mem_cons_of_mem _ hu)

theorem gate_closed_of_closedSince (t now : Int) (ss : Store) (q : Page) (h : ClosedSince t q)
    (hlt : now - t < 86400000) : gateOpen ss q.localStorage now = false := by
  obtain ⟨u, hu, hc⟩ := h
  cases hg : gateOpen ss q.localStorage now with
  | false => rfl
  | true =>
    have h3 := ((gateOpen_eq_true_iff ss q.localStorage now).1 hg).2.2
    rw [hc] at h3
    simp only [JSNumber.sub, JSNumber.lt, decide_eq_false_iff_not, not_lt] at h3
    omega

theorem run_unarmed (es : List Event) : ∀ q : Page, q.armed = false →
    (∀ now : Int, Event.load now ∉ es) → (run q es).showCalls = q.showCalls := by
  induction es with
  | nil => intro q _ _; rfl
  | cons e es ih =>
    intro q ha hl
    have hne : ∀ now : Int, e ≠ .load now := fun now he =>
      hl now (by rw [he]; exact List.mem_cons_self _ _)
    obtain ⟨h1, h2⟩ := step_unarmed q e ha hne
    have h3 := ih (step q e) h1 (fun now hm => hl now (List.mem_cons_of_mem _ hm))
    exact h3.trans h2

/-- C4. Cooldown of 24 hours: when the modal of an armed page is dismissed at
time `t`, then after any further events whose dismissals are not dated before
`t`, a load at a time `t2` with `t2 - t < 86400000` (so at every `t2` from `t`
up to the end of the 24 hours) finds the gate closed, arms nothing and calls `bsModal.show()` at no time during that load; at
`t + 86400000` the cooldown no longer blocks: the gate then depends on the two
flags only. -/
theorem cooldown_after_dismissal (p : Page) (t t2 : Int) (mid : List SiteEvent) (es : List Event)
    (ha : p.armed = true) (h2 : t2 - t < 86400000)
    (hmid : ∀ u : Int, SiteEvent.inSession (.hidden u) ∈ mid → t ≤ u)
    (hes : ∀ now : Int, Event.load now ∉ es) :
    getItem (step p (.hidden t)).localStorage storageKeyClosedAt = some (jsString t) ∧
    (∀ ss : Store, gateOpen ss (siteRun (step p (.hidden t)) mid).localStorage t2 = false) ∧
    (load t2 (siteRun (step p (.hidden t)) mid)).armed = false ∧
    (run (load t2 (siteRun (step p (.hidden t)) mid)) es).showCalls =
      (siteRun (step p (.hidden t)) mid).showCalls ∧
    (∀ ss : Store, gateOpen ss (step p (.hidden t)).localStorage (t + 86400000) = true ↔
      getItem ss sessionKeyShown ≠ some "1" ∧
        getItem (step p (.hidden t)).localStorage storageKeySubmitted ≠ some "1") := by
  have hls : (step p (.hidden t)).localStorage =
      setItem p.localStorage storageKeyClosedAt (jsString t) := by
    simp [step, onHidden, ha]
  have h0 : ClosedSince t (step p (.hidden t)) :=
    ⟨t, le_refl t, by rw [hls]; exact closedAtOf_setItem _ t⟩
  have hq := siteRun_closedSince t mid _ h0 hmid
  have hgate : ∀ ss : Store,
      gateOpen ss (siteRun (step p (.hidden t)) mid).localStorage t2 = false :=
    fun ss => gate_closed_of_closedSince t t2 ss _ hq h2
  obtain ⟨f1, _, _, f4, _⟩ := load_fields t2 (siteRun (step p (.hidden t)) mid)
  have harm : (load t2 (siteRun (step p (.hidden t)) mid)).armed = false := by
    rw [f4]; exact hgate _
  refine ⟨by rw [hls]; exact getItem_setItem_same _ _ _, hgate, harm, ?_, ?_⟩
  · exact (run_unarmed es _ harm hes).trans f1
  · intro ss
    rw [gateOpen_eq_true_iff, hls, closedAtOf_setItem]
    simp [JSNumber.sub, JSNumber.lt]

/-! ## Witnesses for the modal block -/

/-- Witness of C2: first visit, the timer fires, the pointer leaves, the page is
loaded again and the timer fires again. -/
theorem shown_at_most_once_witness :
    (run (firstVisit 86400000) [.timer, .mouseleave 0, .load 86400500, .timer]).showCalls ≤
        (firstVisit 86400000).showCalls + 1 ∧
      (step (firstVisit 86400000) .timer).showCalls = (firstVisit 86400000).showCalls + 1 ∧
      step (step (firstVisit 86400000) .timer) .timer = step (firstVisit 86400000) .timer ∧
      (run (step (firstVisit 86400000) .timer) [.mouseleave 0, .timer]).scheduled = true :=
  ⟨(shown_at_most_once (firstVisit 86400000) [.timer, .mouseleave 0, .load 86400500, .timer]).1,
    ((shown_at_most_once (firstVisit 86400000) []).2.2.2 (by decide) (by decide)).1,
    ((shown_at_most_once (step (firstVisit 86400000) .timer) []).2.1 (by decide)).1,
    (shown_at_most_once (step (firstVisit 86400000) .timer) [.mouseleave 0, .timer]).2.2.1
      (by decide) (by simp)⟩

/-- Witness of C3: on a first visit the modal form is filled in and answered by
status 200; the site is opened again in a new session two days later. -/
theorem submitted_is_permanent_witness :
    getItem (settle .modal (.response 200 none)
        (submit .modal (step (firstVisit 86400000) (.typeEmail .modal "a@b.co")))).localStorage
      storageKeySubmitted = some "1" :=
  (submitted_is_permanent (step (firstVisit 86400000) (.typeEmail .modal "a@b.co")) 200 none
    [.inSession (.hidden 86400900)] [.inSession .timer] 259200000
    (by decide) (by decide) (by decide) (by decide)).1

/-- Witness of C4: the modal shown on a first visit is dismissed one second
later; the page is loaded again an hour after that. -/
theorem cooldown_after_dismissal_witness :
    (load 90001000 (siteRun (step (step (firstVisit 86400000) .timer) (.hidden 86401000))
      [.inSession (.typeEmail .newsletter "x")])).armed = false :=
  (cooldown_after_dismissal (step (firstVisit 86400000) .timer) 86401000 90001000
    [.inSession (.typeEmail .newsletter "x")] [.timer]
    (by decide) (by decide) (by simp) (by simp)).2.2.1

/-! ## The e-mail pattern -/

namespace Regex

theorem matches_lit_iff (a : Char) (x : List Char) : Matches (lit a) x ↔ x = [a] := by
  constructor
  · intro h; cases h; rfl
  · intro h; subst h; exact Matches.lit a

theorem matches_seq_iff (r s : Regex) (x : List Char) :
    Matches (seq r s) x ↔ ∃ u v : List Char, x = u ++ v ∧ Matches r u ∧ Matches s v := by
  constructor
  · intro h
    cases h with
    | seq h1 h2 => exact ⟨_, _, rfl, h1, h2⟩
  · rintro ⟨u, v, rfl, h1, h2⟩
    exact Matches.seq h1 h2

theorem all_of_matches_star {r : Regex} {x : List Char} (h : Matches r x) :
    ∀ cls : Char → Bool, r = star (notIn cls) → ∀ c ∈ x, cls c = false := by
  induction h with
  | eps => intro cls hr; cases hr
  | lit a => intro cls hr; cases hr
  | notIn _ _ _ => intro cls hr; cases hr
  | seq _ _ _ _ => intro cls hr; cases hr
  | altL _ _ => intro cls hr; cases hr
  | altR _ _ => intro cls hr; cases hr
  | starNil => intro cls _ c hc; simp at hc
  | starCons h1 _ _ ih2 =>
    intro cls hr c hc
    cases hr
    rcases List.mem_append.1 hc with hc | hc
    · cases h1 with
      | notIn _ a ha =>
        simp only [List.mem_singleton] at hc
        subst hc
        exact ha
    · exact ih2 cls rfl c hc

theorem matches_star_notIn (cls : Char → Bool) : ∀ x : List Char,
    (∀ c ∈ x, cls c = false) → Matches (star (notIn cls)) x
  | [], _ => Matches.starNil
  | a :: x, h => by
    have h1 : Matches (notIn cls) [a] := Matches.notIn cls a (h a (by simp))
    have h2 := matches_star_notIn cls x (fun c hc => h c (List.mem_cons_of_mem _ hc))
    simpa using Matches.starCons h1 h2

theorem matches_plus_notIn_iff (cls : Char → Bool) (x : List Char) :
    Matches (plus (notIn cls)) x ↔ x ≠ [] ∧ ∀ c ∈ x, cls c = false := by
  unfold plus
  constructor
  · intro h
    cases h with
    | seq h1 h2 =>
      cases h1 with
      | notIn _ a ha =>
        refine ⟨by simp, ?_⟩
        intro c hc
        rcases List.mem_append.1 hc with hc | hc
        · simp only [List.mem_singleton] at hc
          subst hc
          exact ha
        · exact all_of_matches_star h2 cls rfl c hc
  · rintro ⟨hne, hall⟩
    cases x with
    | nil => exact absurd rfl hne
    | cons a x =>
      have h1 : Matches (notIn cls) [a] := Matches.notIn cls a (hall a (by simp))
      have h2 := matches_star_notIn cls x (fun c hc => hall c (List.mem_cons_of_mem _ hc))
      simpa using Matches.seq h1 h2

theorem deriv_respects (f : Char → Char) : ∀ (r : Regex) (c : Char), Respects f r →
    deriv r (f c) = deriv r c ∧ Respects f (deriv r c)
  | empty, c, _ => ⟨rfl, trivial⟩
  | eps, c, _ => ⟨rfl, trivial⟩
  | lit a, c, h => by
    have hc : (a = f c) = (a = c) := propext (h c)
    refine ⟨by simp only [deriv, hc], ?_⟩
    simp only [deriv]
    split <;> trivial
  | notIn cls, c, h => by
    refine ⟨by simp only [deriv, h c], ?_⟩
    simp only [deriv]
    split <;> trivial
  | seq r s, c, h => by
    obtain ⟨h1, h2⟩ := deriv_respects f r c h.1
    obtain ⟨h3, h4⟩ := deriv_respects f s c h.2
    refine ⟨by simp only [deriv, h1, h3], ?_⟩
    simp only [deriv]
    split
    · exact ⟨⟨h2, h.2⟩, h4⟩
    · exact ⟨h2, h.2⟩
  | alt r s, c, h => by
    obtain ⟨h1, h2⟩ := deriv_respects f r c h.1
    obtain ⟨h3, h4⟩ := deriv_respects f s c h.2
    exact ⟨by simp only [deriv, h1, h3], ⟨h2, h4⟩⟩
  | star r, c, h => by
    obtain ⟨h1, h2⟩ := deriv_respects f r c h
    exact ⟨by simp only [deriv, h1], ⟨h2, h⟩⟩

/-- A character map that keeps every test of the pattern keeps its verdict. -/
theorem test_map (f : Char → Char) : ∀ (s : List Char) (r : Regex), Respects f r →
    test r (s.map f) = test r s
  | [], r, _ => rfl
  | c :: s, r, h => by
    obtain ⟨h1, h2⟩ := deriv_respects f r c h
    have ih := test_map f s (deriv r c) h2
    simp only [test, List.map_cons, List.foldl_cons, h1] at ih ⊢
    exact ih

end Regex

theorem toLower_cases (c : Char) :
    c.toLower = c ∨
      (65 ≤ c.toNat ∧ c.toNat ≤ 90 ∧ 97 ≤ c.toLower.toNat ∧ c.toLower.toNat ≤ 122) := by
  unfold Char.toLower
  simp only
  split
  · right
    rename_i h
    obtain ⟨h1, h2⟩ := h
    refine ⟨h1, h2, ?_⟩
    generalize c.toNat = n at *
    interval_cases n <;> decide
  · left; rfl

theorem toUpper_cases (c : Char) :
    c.toUpper = c ∨
      (97 ≤ c.toNat ∧ c.toNat ≤ 122 ∧ 65 ≤ c.toUpper.toNat ∧ c.toUpper.toNat ≤ 90) := by
  unfold Char.toUpper
  simp only
  split
  · right
    rename_i h
    obtain ⟨h1, h2⟩ := h
    refine ⟨h1, h2, ?_⟩
    generalize c.toNat = n at *
    interval_cases n <;> decide
  · left; rfl

theorem spaceOrAt_of_letter (c : Char) (h : 65 ≤ c.toNat ∧ c.toNat ≤ 122) : spaceOrAt c = false := by
  have h1 := isWhiteSpace_of_printable c (by omega)
  have h2 : c ≠ '@' := by
    intro hc; subst hc; revert h; decide
  simp [spaceOrAt, h1, h2]

theorem ne_of_letter (a c : Char) (ha : a.toNat < 65) (h : 65 ≤ c.toNat) : a ≠ c := by
  intro hc; subst hc; omega

/-- A map that moves letters to letters and nothing else keeps the tests of the
e-mail pattern. -/
theorem emailPattern_respects (f : Char → Char)
    (hf : ∀ c : Char, f c = c ∨ (65 ≤ c.toNat ∧ c.toNat ≤ 122 ∧ 65 ≤ (f c).toNat ∧ (f c).toNat ≤ 122)) :
    Regex.Respects f emailPattern := by
  have hcls : ∀ c : Char, spaceOrAt (f c) = spaceOrAt c := by
    intro c
    rcases hf c with h | ⟨h1, h2, h3, h4⟩
    · rw [h]
    · rw [spaceOrAt_of_letter c ⟨h1, h2⟩, spaceOrAt_of_letter (f c) ⟨h3, h4⟩]
  have hlit : ∀ a : Char, a.toNat < 65 → ∀ c : Char, a = f c ↔ a = c := by
    intro a ha c
    rcases hf c with h | ⟨h1, _, h3, _⟩
    · rw [h]
    · exact ⟨fun h => absurd h (ne_of_letter a (f c) ha h3), fun h => absurd h (ne_of_letter a c ha h1)⟩
  have hp : Regex.Respects f (Regex.plus (Regex.notIn spaceOrAt)) := by
    unfold Regex.plus
    exact ⟨hcls, hcls⟩
  exact ⟨hp, hlit '@' (by decide), hp, hlit '.' (by decide), hp⟩

theorem test_toLowerCase (s : List Char) : emailPattern.test (toLowerCase s) = emailPattern.test s := by
  refine Regex.test_map Char.toLower s emailPattern (emailPattern_respects _ fun c => ?_)
  rcases toLower_cases c with h | h
  · exact Or.inl h
  · exact Or.inr (by omega)

theorem test_toUpperCase (s : List Char) : emailPattern.test (toUpperCase s) = emailPattern.test s := by
  refine Regex.test_map Char.toUpper s emailPattern (emailPattern_respects _ fun c => ?_)
  rcases toUpper_cases c with h | h
  · exact Or.inl h
  · exact Or.inr (by omega)

/-- The pattern denotes the strings of the shape it spells. -/
theorem matches_emailPattern_iff (s : List Char) : Regex.Matches emailPattern s ↔ EmailShape s := by
  unfold emailPattern EmailShape Plain
  simp only [Regex.matches_seq_iff, Regex.matches_lit_iff, Regex.matches_plus_notIn_iff]
  constructor
  · rintro ⟨l, r1, rfl, hl, a, r2, rfl, rfl, d, r3, rfl, hd, b, t, rfl, rfl, ht⟩
    exact ⟨l, d, t, by simp, hl, hd, ht⟩
  · rintro ⟨l, d, t, rfl, hl, hd, ht⟩
    exact ⟨l, _, rfl, hl, ['@'], _, rfl, rfl, d, _, rfl, hd, ['.'], t, rfl, rfl, ht⟩

theorem isValidEmail_iff (v : String) : isValidEmail v = true ↔ EmailShape v.data := by
  unfold isValidEmail
  rw [test_toLowerCase, Regex.test_iff, matches_emailPattern_iff]

theorem plain_no_at (s : List Char) (h : Plain s) : '@' ∉ s := by
  intro hm
  have := h.2 '@' hm
  revert this
  decide

theorem at_split_unique : ∀ (l a r b : List Char), '@' ∉ l → '@' ∉ r →
    l ++ '@' :: r = a ++ '@' :: b → b = r
  | [], [], r, b, _, _, h => by
    simp only [List.nil_append, List.cons.injEq, true_and] at h
    exact h.symm
  | [], x :: a, r, b, _, hr, h => by
    simp only [List.nil_append, List.cons_append, List.cons.injEq] at h
    exact absurd (by rw [h.2]; simp) hr
  | y :: l, [], r, b, hl, _, h => by
    simp only [List.nil_append, List.cons_append, List.cons.injEq] at h
    exact absurd (by rw [h.1]; simp) hl
  | y :: l, x :: a, r, b, hl, hr, h => by
    simp only [List.cons_append, List.cons.injEq] at h
    exact at_split_unique l a r b (fun hm => hl (List.mem_cons_of_mem _ hm)) hr h.2

/-- C5 as stated fails: the string `a@b.c@d` is an `@`-free run, `@`, an `@`-free
run, `.` and a run without white space, and `isValidEmail` rejects it. -/
theorem email_pattern_as_stated_fails :
    ¬ (isValidEmail "a@b.c@d" = true ↔ SpecEmailShape (toLowerCase "a@b.c@d".data)) := by
  intro h
  have hv : isValidEmail "a@b.c@d" = false := by decide
  have hs : SpecEmailShape (toLowerCase "a@b.c@d".data) := by
    refine ⟨['a'], ['b'], ['c', '@', 'd'], by decide, ⟨by simp, ?_⟩, ⟨by simp, ?_⟩, ⟨by simp, ?_⟩⟩
    · intro c hc
      simp only [List.mem_singleton] at hc
      subst hc
      decide
    · intro c hc
      simp only [List.mem_singleton] at hc
      subst hc
      decide
    · intro c hc
      simp only [List.mem_cons, List.mem_singleton, List.not_mem_nil, or_false] at hc
      rcases hc with rfl | rfl | rfl <;> decide
  rw [h.2 hs] at hv
  cases hv

/-- C5, amended. `isValidEmail(value)` is true exactly when the whole value,
lower-cased or as it stands, is one or more characters that are neither white
space nor `@`, then `@`, then one or more such characters, then `.`, then one or
more characters that are neither white space nor `@`; the field fails
validation exactly when the value is not of this shape. -/
theorem email_pattern (v : String) :
    (isValidEmail v = true ↔ EmailShape (toLowerCase v.data)) ∧
    (isValidEmail v = true ↔ EmailShape v.data) ∧
    (isValidEmail v = false ↔ ¬ EmailShape v.data) := by
  refine ⟨?_, isValidEmail_iff v, ?_⟩
  · unfold isValidEmail
    rw [Regex.test_iff, matches_emailPattern_iff]
  · rw [← isValidEmail_iff]
    cases isValidEmail v <;> simp

/-- C6. Shapes accepted and rejected: a value without `@`, or with no `.` after
an `@`, is rejected; a value `local@domain.tld` whose three parts are non-empty
and free of white space and `@` is accepted; and the verdict does not depend on
letter case. -/
theorem email_shapes (v : String) :
    ('@' ∉ v.data → isValidEmail v = false) ∧
    (∀ a b : List Char, v.data = a ++ '@' :: b → '.' ∉ b → isValidEmail v = false) ∧
    (∀ l d t : List Char, v.data = l ++ '@' :: (d ++ '.' :: t) → Plain l → Plain d → Plain t →
      isValidEmail v = true) ∧
    isValidEmail (String.mk (toUpperCase v.data)) = isValidEmail v ∧
    isValidEmail (String.mk (toLowerCase v.data)) = isValidEmail v ∧
    (∀ w : String, toLowerCase w.data = toLowerCase v.data → isValidEmail w = isValidEmail v) := by
  have hfalse : ¬ EmailShape v.data → isValidEmail v = false := by
    intro h
    cases hv : isValidEmail v with
    | false => rfl
    | true => exact absurd ((isValidEmail_iff v).1 hv) h
  have hraw : ∀ s : List Char, isValidEmail (String.mk s) = emailPattern.test s := by
    intro s
    unfold isValidEmail
    exact test_toLowerCase s
  refine ⟨?_, ?_, ?_, ?_, ?_, ?_⟩
  · intro hno
    apply hfalse
    rintro ⟨l, d, t, hs, _, _, _⟩
    exact hno (by rw [hs]; simp)
  · intro a b hab hdot
    apply hfalse
    rintro ⟨l, d, t, hs, hl, hd, ht⟩
    have hr : '@' ∉ d ++ '.' :: t := by
      intro hm
      rcases List.mem_append.1 hm with hm | hm
      · exact plain_no_at d hd hm
      · rcases List.mem_cons.1 hm with hm | hm
        · revert hm; decide
        · exact plain_no_at t ht hm
    have hb := at_split_unique l a _ b (plain_no_at l hl) hr (hs.symm.trans hab)
    exact hdot (by rw [hb]; simp)
  · intro l d t hs hl hd ht
    exact (isValidEmail_iff v).2 ⟨l, d, t, hs, hl, hd, ht⟩
  · rw [hraw, test_toUpperCase]
    unfold isValidEmail
    exact (test_toLowerCase v.data).symm
  · rw [hraw]
    rfl
  · intro w hw
    unfold isValidEmail
    rw [hw]

/-- Witness of C6: a mixed-case address is accepted like its lower-case form,
and a value whose `@` is followed by no `.` is rejected. -/
theorem email_shapes_witness :
    isValidEmail "Jo@Ex.Org" = true ∧ isValidEmail "jo@ex.org" = isValidEmail "Jo@Ex.Org" ∧
      isValidEmail "a.b@c" = false ∧ isValidEmail "not-an-email" = false :=
  ⟨(email_shapes "Jo@Ex.Org").2.2.1 ['J', 'o'] ['E', 'x'] ['O', 'r', 'g'] (by decide)
      ⟨by simp, by decide⟩ ⟨by simp, by decide⟩ ⟨by simp, by decide⟩,
    (email_shapes "Jo@Ex.Org").2.2.2.2.2 "jo@ex.org" (by decide),
    (email_shapes "a.b@c").2.1 ['a', '.', 'b'] ['c'] (by decide) (by decide),
    (email_shapes "not-an-email").1 (by decide)⟩

/-! ## Submit handlers -/

/-- C7. A submission that fails client-side validation stays local: the handler
of each form shows the error element and returns with no request issued, the
submit control as it was, and the input values, both storage areas, the waiting
continuations, the timers and the success element unchanged. -/
theorem invalid_submission_stays_local (f : FormId) (p : Page)
    (hl : hasSubmitListener f p = true) (hv : failsValidation f p = true) :
    (uiOf f (submit f p)).errHidden = false ∧
    (submit f p).requests = p.requests ∧
    (uiOf f (submit f p)).disabled = (uiOf f p).disabled ∧
    valuesOf f (submit f p) = valuesOf f p ∧
    (submit f p).localStorage = p.localStorage ∧
    (submit f p).sessionStorage = p.sessionStorage ∧
    pendingOf f (submit f p) = pendingOf f p ∧
    (submit f p).timers = p.timers ∧
    (uiOf f (submit f p)).okHidden = (uiOf f p).okHidden := by
  cases f with
  | newsletter =>
    have h : isValidEmail p.newsletter.email = false := by simpa [failsValidation] using hv
    simp [submit, newsletterSubmit, uiOf, valuesOf, pendingOf, h]
  | modal =>
    have h : isValidEmail p.modal.email = false := by simpa [failsValidation] using hv
    have ha : p.armed = true := by simpa [hasSubmitListener] using hl
    simp [submit, modalSubmit, uiOf, valuesOf, pendingOf, h, ha]
  | contact =>
    simp only [submit, contactSubmit, uiOf, valuesOf, pendingOf]
    split
    · simp
    · split
      · simp
      · split
        · simp
        · rename_i h1 h2 h3
          simp only [failsValidation, Bool.or_eq_true] at hv
          rcases hv with (hv | hv) | hv
          · exact absurd hv h1
          · exact absurd hv h2
          · exact absurd hv h3

/-- Witness of C7: the newsletter form with the value `not-an-email`. -/
theorem invalid_submission_stays_local_witness :
    (submit .newsletter (step (firstVisit 0) (.typeEmail .newsletter "not-an-email"))).requests = [] ∧
      (uiOf .newsletter
        (submit .newsletter (step (firstVisit 0) (.typeEmail .newsletter "not-an-email")))).errHidden =
        false :=
  ⟨(invalid_submission_stays_local .newsletter
      (step (firstVisit 0) (.typeEmail .newsletter "not-an-email")) (by decide) (by decide)).2.1,
    (invalid_submission_stays_local .newsletter
      (step (firstVisit 0) (.typeEmail .newsletter "not-an-email")) (by decide) (by decide)).1⟩

theorem postForm_of_not_ok (o : FetchOutcome) (h : o.ok = false) : ∃ msg, postForm o = .error msg := by
  cases o with
  | rejected => exact ⟨_, rfl⟩
  | response status json => exact ⟨"Network error", by simp [postForm, h]⟩

theorem postForm_of_ok (o : FetchOutcome) (h : o.ok = true) : ∃ v, postForm o = .ok v := by
  cases o with
  | rejected => simp [FetchOutcome.ok] at h
  | response status json =>
    cases json with
    | none => exact ⟨.implicitSuccess, by simp [postForm, h]⟩
    | some j => exact ⟨.body j, by simp [postForm, h]⟩

/-- The continuation of a handler on a failed request, from any page on which it
waits. -/
theorem settle_failed (f : FormId) (o : FetchOutcome) (q : Page) (hp : 0 < pendingOf f q)
    (ho : o.ok = false) :
    (uiOf f (settle f o q)).errHidden = false ∧
    (uiOf f (settle f o q)).errText = failureText f ∧
    (uiOf f (settle f o q)).okHidden = (uiOf f q).okHidden ∧
    (uiOf f (settle f o q)).disabled = false ∧
    valuesOf f (settle f o q) = valuesOf f q ∧
    (settle f o q).localStorage = q.localStorage ∧
    (settle f o q).sessionStorage = q.sessionStorage := by
  obtain ⟨msg, hm⟩ := postForm_of_not_ok o ho
  cases f with
  | newsletter =>
    have hne : q.newsletter.pending ≠ 0 := by simp only [pendingOf] at hp; omega
    simp [settle, newsletterSettle, uiOf, valuesOf, hne, hm, failureText]
  | modal =>
    have hne : q.modal.pending ≠ 0 := by simp only [pendingOf] at hp; omega
    simp [settle, modalSettle, uiOf, valuesOf, hne, hm, failureText]
  | contact =>
    have hne : q.contact.pending ≠ 0 := by simp only [pendingOf] at hp; omega
    simp [settle, contactSettle, uiOf, valuesOf, hne, hm, failureText]

/-- The continuation of a handler re-enables the control whatever the outcome. -/
theorem settle_enables (f : FormId) (o : FetchOutcome) (q : Page) (hp : 0 < pendingOf f q) :
    (uiOf f (settle f o q)).disabled = false := by
  cases f with
  | newsletter =>
    have hne : q.newsletter.pending ≠ 0 := by simp only [pendingOf] at hp; omega
    simp only [settle, newsletterSettle, uiOf, hne, if_false]
  | modal =>
    have hne : q.modal.pending ≠ 0 := by simp only [pendingOf] at hp; omega
    simp only [settle, modalSettle, uiOf, hne, if_false]
  | contact =>
    have hne : q.contact.pending ≠ 0 := by simp only [pendingOf] at hp; omega
    simp only [settle, contactSettle, uiOf, hne, if_false]

/-- The synchronous part of a handler on a submission that passes validation:
both messages hidden, the control disabled, one request issued, one more
continuation waiting, and the rest as it was. -/
theorem submit_valid (f : FormId) (p : Page) (hl : hasSubmitListener f p = true)
    (hv : failsValidation f p = false) :
    (uiOf f (submit f p)).okHidden = true ∧
    (uiOf f (submit f p)).errHidden = true ∧
    (uiOf f (submit f p)).disabled = true ∧
    pendingOf f (submit f p) = pendingOf f p + 1 ∧
    (submit f p).requests.length = p.requests.length + 1 ∧
    ((submit f p).requests.head?.map fun r => r.form) = some f ∧
    valuesOf f (submit f p) = valuesOf f p ∧
    (submit f p).timers = p.timers := by
  cases f with
  | newsletter =>
    have h : isValidEmail p.newsletter.email = true := by simpa [failsValidation] using hv
    simp [submit, newsletterSubmit, uiOf, valuesOf, pendingOf, h]
  | modal =>
    have h : isValidEmail p.modal.email = true := by simpa [failsValidation] using hv
    have ha : p.armed = true := by simpa [hasSubmitListener] using hl
    simp [submit, modalSubmit, uiOf, valuesOf, pendingOf, h, ha]
  | contact =>
    simp only [failsValidation, Bool.or_eq_false_iff, Bool.not_eq_false'] at hv
    obtain ⟨⟨h1, h2⟩, h3⟩ := hv
    simp [submit, contactSubmit, uiOf, valuesOf, pendingOf, h1, h2, h3]

/-- C8. A request that fails (the `fetch` rejects, or the status is outside
200-299 so that `postForm` throws): after a submission that passed validation
the control is disabled and a request is out; when the request fails the error
message of the form is shown, the success message is still hidden, the input
values and both storage areas are as before the submission, and the control is
enabled again; the control is enabled again after any outcome. -/
theorem failed_request (f : FormId) (p : Page) (o : FetchOutcome)
    (hl : hasSubmitListener f p = true) (hv : failsValidation f p = false) (ho : o.ok = false) :
    (∀ (status : Nat) (json : Option String), status < 200 ∨ 299 < status →
      postForm (.response status json) = .error "Network error") ∧
    (uiOf f (submit f p)).disabled = true ∧
    (submit f p).requests.length = p.requests.length + 1 ∧
    (uiOf f (settle f o (submit f p))).errHidden = false ∧
    (uiOf f (settle f o (submit f p))).errText = failureText f ∧
    (uiOf f (settle f o (submit f p))).okHidden = true ∧
    valuesOf f (settle f o (submit f p)) = valuesOf f p ∧
    (settle f o (submit f p)).localStorage = p.localStorage ∧
    (settle f o (submit f p)).sessionStorage = p.sessionStorage ∧
    (uiOf f (settle f o (submit f p))).disabled = false ∧
    (∀ o2 : FetchOutcome, (uiOf f (settle f o2 (submit f p))).disabled = false) := by
  obtain ⟨s1, s2, s3, s4, s5, _, s7, _⟩ := submit_valid f p hl hv
  have hp : 0 < pendingOf f (submit f p) := by omega
  obtain ⟨e1, e2, e3, e4, e5, e6, e7⟩ := settle_failed f o (submit f p) hp ho
  obtain ⟨_, g2, _, _, g5⟩ := submit_frame f p
  refine ⟨?_, s3, s5, e1, e2, e3.trans s1, e5.trans s7, e6.trans g5, e7.trans g2, e4,
    fun o2 => settle_enables f o2 (submit f p) hp⟩
  intro status json hs
  have hnot : ¬ (200 ≤ status ∧ status ≤ 299) := by omega
  simp [postForm, FetchOutcome.ok, hnot]

/-- Witness of C8: the contact form, filled in, answered by status 500. -/
theorem failed_request_witness :
    (uiOf .contact (settle .contact (.response 500 none) (submit .contact
      (run (firstVisit 0) [.typeName "Jo", .typeEmail .contact "jo@ex.org", .typeMessage "Hi"])))).errText =
        "Something went wrong. Please try again later." ∧
      valuesOf .contact (settle .contact (.response 500 none) (submit .contact
        (run (firstVisit 0) [.typeName "Jo", .typeEmail .contact "jo@ex.org", .typeMessage "Hi"]))) =
        ["Jo", "jo@ex.org", "Hi"] :=
  ⟨(failed_request .contact
      (run (firstVisit 0) [.typeName "Jo", .typeEmail .contact "jo@ex.org", .typeMessage "Hi"])
      (.response 500 none) (by decide) (by decide) (by decide)).2.2.2.2.1,
    (failed_request .contact
      (run (firstVisit 0) [.typeName "Jo", .typeEmail .contact "jo@ex.org", .typeMessage "Hi"])
      (.response 500 none) (by decide) (by decide) (by decide)).2.2.2.2.2.2.1⟩

/-- C10 as stated fails: on the newsletter form of a first visit a valid address
is typed and submitted, the request is answered by status 200, and then one
character is typed.  The success message and the error message are then both
visible: the form is in two of the four states. -/
theorem success_then_typing_shows_both_messages :
    (run (firstVisit 0)
        [.typeEmail .newsletter "jo@ex.org", .submit .newsletter,
          .settle .newsletter (.response 200 none), .typeEmail .newsletter "j"]).newsletter.ui =
      { errHidden := false, errText := "Please enter a valid email address.",
        okHidden := false, okText := "Subscribed! Check your inbox.", disabled := false } ∧
    (run (firstVisit 0)
        [.typeEmail .newsletter "jo@ex.org", .submit .newsletter,
          .settle .newsletter (.response 200 none),
          .typeEmail .newsletter "j"]).newsletter.ui.stateCount = 2 := by
  constructor <;> decide

/-! ## The states of a form along a run -/

theorem stateCount_of_inv (f : FormId) (p : Page) (h : OneStateInv f p) :
    (uiOf f p).stateCount = 1 ∧
      ¬ ((uiOf f p).okHidden = false ∧ (uiOf f p).errHidden = false) := by
  unfold OneStateInv at h
  generalize uiOf f p = ui at h
  obtain ⟨eh, et, oh, ot, d⟩ := ui
  simp only [Feedback.stateCount, Feedback.isIdle, Feedback.isSubmitting, Feedback.isSuccess,
    Feedback.isError]
  rcases h with ⟨_, hd, ho | he⟩ | ⟨_, hd, ho, he⟩
  · simp only at hd ho
    subst hd ho
    cases eh <;> simp
  · simp only at hd he
    subst hd he
    cases oh <;> simp
  · simp only at hd ho he
    subst hd ho he
    simp

theorem load_oneState (f : FormId) (now : Int) (p : Page) : OneStateInv f (load now p) := by
  left
  cases f <;> simp only [load, modalInit] <;> split <;>
    simp [uiOf, pendingOf, EmailForm.initial, ContactForm.initial, Feedback.initial]

theorem emailInputListener_fields (v : String) (ui : Feedback) :
    (emailInputListener v ui).errHidden = isValidEmail v ∧
      (emailInputListener v ui).okHidden = ui.okHidden ∧
      (emailInputListener v ui).disabled = ui.disabled := by
  unfold emailInputListener
  cases isValidEmail v <;> simp

theorem typeEmail_oneState (f g : FormId) (v : String) (p : Page) (hi : OneStateInv f p)
    (ha : admissible f p (.typeEmail g v) = true) : OneStateInv f (typeEmail g v p) := by
  obtain ⟨l1, l2, l3⟩ := emailInputListener_fields v (uiOf f p)
  unfold OneStateInv at hi ⊢
  cases f <;> cases g <;>
    simp only [typeEmail, uiOf, pendingOf, admissible, bne_self_eq_false, Bool.false_or,
      Bool.or_eq_true, Bool.and_eq_true, Bool.not_eq_true', bne_iff_ne, ne_eq, reduceCtorEq,
      not_false_eq_true, not_true_eq_false, true_or, false_or] at hi ha l1 l2 l3 ⊢ <;>
    first
    | exact hi
    | (rw [l1, l2, l3]
       rcases hi with ⟨h0, hd, h⟩ | ⟨h1, hd, ho, he⟩
       · left
         refine ⟨h0, hd, ?_⟩
         rcases ha with ha | ⟨ha, _⟩
         · exact Or.inr ha
         · exact Or.inl ha
       · right
         refine ⟨h1, hd, ho, ?_⟩
         rcases ha with ha | ⟨_, ha⟩
         · exact ha
         · rw [hd] at ha
           cases ha)

theorem submit_other (f g : FormId) (p : Page) (h : g ≠ f) :
    uiOf f (submit g p) = uiOf f p ∧ pendingOf f (submit g p) = pendingOf f p := by
  cases f <;> cases g <;> first
    | exact absurd rfl h
    | (simp only [submit, newsletterSubmit, uiOf, pendingOf]; split <;> simp)
    | (simp only [submit, modalSubmit, uiOf, pendingOf]
       split
       · simp
       · split <;> simp)
    | (simp only [submit, contactSubmit, uiOf, pendingOf]
       split
       · simp
       · split
         · simp
         · split <;> simp)

theorem settle_other (f g : FormId) (o : FetchOutcome) (p : Page) (h : g ≠ f) :
    uiOf f (settle g o p) = uiOf f p ∧ pendingOf f (settle g o p) = pendingOf f p := by
  cases f <;> cases g <;> first
    | exact absurd rfl h
    | (simp only [settle, newsletterSettle, uiOf, pendingOf]; split <;> simp)
    | (simp only [settle, modalSettle, uiOf, pendingOf]
       split
       · simp
       · split <;> simp)
    | (simp only [settle, contactSettle, uiOf, pendingOf]; split <;> simp)

/-- A submission that fails validation touches the error element only. -/
theorem submit_invalid_fields (f : FormId) (p : Page) (hv : failsValidation f p = true) :
    (uiOf f (submit f p)).okHidden = (uiOf f p).okHidden ∧
      (uiOf f (submit f p)).disabled = (uiOf f p).disabled ∧
      pendingOf f (submit f p) = pendingOf f p := by
  cases f with
  | newsletter =>
    have h : isValidEmail p.newsletter.email = false := by simpa [failsValidation] using hv
    simp [submit, newsletterSubmit, uiOf, pendingOf, h]
  | modal =>
    have h : isValidEmail p.modal.email = false := by simpa [failsValidation] using hv
    simp only [submit, modalSubmit, uiOf, pendingOf]
    split
    · simp
    · simp [h]
  | contact =>
    simp only [submit, contactSubmit, uiOf, pendingOf]
    split
    · simp
    · split
      · simp
      · split
        · simp
        · rename_i h1 h2 h3
          simp only [failsValidation, Bool.or_eq_true] at hv
          rcases hv with (hv | hv) | hv
          · exact absurd hv h1
          · exact absurd hv h2
          · exact absurd hv h3

theorem submit_invalid_shows (f : FormId) (p : Page) (hl : hasSubmitListener f p = true)
    (hv : failsValidation f p = true) : (uiOf f (submit f p)).errHidden = false := by
  cases f with
  | newsletter =>
    have h : isValidEmail p.newsletter.email = false := by simpa [failsValidation] using hv
    simp [submit, newsletterSubmit, uiOf, h]
  | modal =>
    have h : isValidEmail p.modal.email = false := by simpa [failsValidation] using hv
    have ha : p.armed = true := by simpa [hasSubmitListener] using hl
    simp [submit, modalSubmit, uiOf, h, ha]
  | contact =>
    simp only [submit, contactSubmit, uiOf]
    split
    · simp
    · split
      · simp
      · split
        · simp
        · rename_i h1 h2 h3
          simp only [failsValidation, Bool.or_eq_true] at hv
          rcases hv with (hv | hv) | hv
          · exact absurd hv h1
          · exact absurd hv h2
          · exact absurd hv h3

/-- Without its listener the `submit` event of the modal form runs no code. -/
theorem submit_without_listener (f : FormId) (p : Page) (hl : hasSubmitListener f p = false) :
    submit f p = p := by
  cases f with
  | newsletter => simp [hasSubmitListener] at hl
  | modal =>
    have ha : p.armed = false := by simpa [hasSubmitListener] using hl
    simp [submit, modalSubmit, ha]
  | contact => simp [hasSubmitListener] at hl

theorem submit_oneState (f g : FormId) (p : Page) (hi : OneStateInv f p)
    (ha : admissible f p (.submit g) = true) : OneStateInv f (submit g p) := by
  by_cases hg : g = f
  · subst hg
    simp only [admissible, bne_self_eq_false, Bool.false_or, Bool.and_eq_true, Bool.not_eq_true',
      Bool.or_eq_true] at ha
    obtain ⟨hd, hva⟩ := ha
    cases hl : hasSubmitListener g p with
    | false => rw [submit_without_listener g p hl]; exact hi
    | true =>
      cases hv : failsValidation g p with
      | true =>
        obtain ⟨s1, s2, s3⟩ := submit_invalid_fields g p hv
        have hok : (uiOf g p).okHidden = true := by
          rcases hva with h | h
          · rw [hv] at h; cases h
          · exact h
        rcases hi with ⟨h0, _, _⟩ | ⟨_, hd2, _, _⟩
        · left
          exact ⟨by rw [s3]; exact h0, by rw [s2]; exact hd, Or.inl (by rw [s1]; exact hok)⟩
        · rw [hd] at hd2
          cases hd2
      | false =>
        obtain ⟨s1, s2, s3, s4, _⟩ := submit_valid g p hl hv
        rcases hi with ⟨h0, _, _⟩ | ⟨_, hd2, _, _⟩
        · right
          exact ⟨by rw [s4, h0], s3, s1, s2⟩
        · rw [hd] at hd2
          cases hd2
  · obtain ⟨h1, h2⟩ := submit_other f g p hg
    unfold OneStateInv
    rw [h1, h2]
    exact hi

theorem settle_waiting (f : FormId) (o : FetchOutcome) (p : Page) (hp : pendingOf f p ≠ 0) :
    pendingOf f (settle f o p) = pendingOf f p - 1 ∧
      (uiOf f (settle f o p)).disabled = false ∧
      (((uiOf f (settle f o p)).okHidden = false ∧
          (uiOf f (settle f o p)).errHidden = (uiOf f p).errHidden) ∨
        ((uiOf f (settle f o p)).errHidden = false ∧
          (uiOf f (settle f o p)).okHidden = (uiOf f p).okHidden)) := by
  cases f with
  | newsletter =>
    simp only [pendingOf] at hp
    simp only [settle, newsletterSettle, uiOf, pendingOf, hp, if_false]
    cases postForm o <;> simp [EmailForm.reset]
  | modal =>
    simp only [pendingOf] at hp
    simp only [settle, modalSettle, uiOf, pendingOf, hp, if_false]
    cases postForm o <;> simp
  | contact =>
    simp only [pendingOf] at hp
    simp only [settle, contactSettle, uiOf, pendingOf, hp, if_false]
    cases postForm o <;> simp [ContactForm.reset]

theorem settle_idle (f : FormId) (o : FetchOutcome) (p : Page) (hp : pendingOf f p = 0) :
    settle f o p = p := by
  cases f <;> simp only [pendingOf] at hp <;>
    simp [settle, newsletterSettle, modalSettle, contactSettle, hp]

theorem settle_oneState (f g : FormId) (o : FetchOutcome) (p : Page) (hi : OneStateInv f p) :
    OneStateInv f (settle g o p) := by
  by_cases hg : g = f
  · subst hg
    rcases hi with ⟨h0, hd, h⟩ | ⟨h1, hd, ho, he⟩
    · rw [settle_idle g o p h0]
      exact Or.inl ⟨h0, hd, h⟩
    · obtain ⟨s1, s2, s3⟩ := settle_waiting g o p (by omega)
      left
      refine ⟨by omega, s2, ?_⟩
      rcases s3 with ⟨_, s⟩ | ⟨_, s⟩
      · exact Or.inr (by rw [s]; exact he)
      · exact Or.inl (by rw [s]; exact ho)
  · obtain ⟨h1, h2⟩ := settle_other f g o p hg
    unfold OneStateInv
    rw [h1, h2]
    exact hi

theorem step_oneState (f : FormId) (p : Page) (e : Event) (hi : OneStateInv f p)
    (ha : admissible f p e = true) : OneStateInv f (step p e) := by
  cases e with
  | load now => exact load_oneState f now p
  | timer =>
    have h : uiOf f (onTimer p) = uiOf f p ∧ pendingOf f (onTimer p) = pendingOf f p := by
      cases f <;> simp only [onTimer, showModal, uiOf, pendingOf] <;> split <;>
        first | (split <;> simp) | simp
    unfold OneStateInv
    rw [step, h.1, h.2]
    exact hi
  | mouseleave y =>
    have h : uiOf f (onMouseLeave y p) = uiOf f p ∧
        pendingOf f (onMouseLeave y p) = pendingOf f p := by
      cases f <;> simp only [onMouseLeave, showModal, uiOf, pendingOf] <;> split <;>
        first | (split <;> first | (split <;> simp) | simp) | simp
    unfold OneStateInv
    rw [step, h.1, h.2]
    exact hi
  | hidden now =>
    have h : uiOf f (onHidden now p) = uiOf f p ∧ pendingOf f (onHidden now p) = pendingOf f p := by
      cases f <;> simp only [onHidden, uiOf, pendingOf] <;> split <;> simp
    unfold OneStateInv
    rw [step, h.1, h.2]
    exact hi
  | typeEmail g v => exact typeEmail_oneState f g v p hi ha
  | typeName v =>
    have h : uiOf f (step p (.typeName v)) = uiOf f p ∧
        pendingOf f (step p (.typeName v)) = pendingOf f p := by
      cases f <;> simp [step, uiOf, pendingOf]
    unfold OneStateInv
    rw [h.1, h.2]
    exact hi
  | typeMessage v =>
    have h : uiOf f (step p (.typeMessage v)) = uiOf f p ∧
        pendingOf f (step p (.typeMessage v)) = pendingOf f p := by
      cases f <;> simp [step, uiOf, pendingOf]
    unfold OneStateInv
    rw [h.1, h.2]
    exact hi
  | submit g => exact submit_oneState f g p hi ha
  | settle g o => exact settle_oneState f g o p hi

theorem run_take_oneState (f : FormId) : ∀ (es : List Event) (p : Page) (k : Nat),
    OneStateInv f p → admissibleRun f p es = true → OneStateInv f (run p (es.take k))
  | [], p, k, hi, _ => by simpa [run] using hi
  | e :: es, p, 0, hi, _ => by simpa [run] using hi
  | e :: es, p, k + 1, hi, ha => by
    simp only [admissibleRun, Bool.and_eq_true] at ha
    simp only [List.take_succ_cons, run, List.foldl_cons]
    exact run_take_oneState f es (step p e) k (step_oneState f p e hi ha.1) ha.2

/-- C10, amended. From a freshly loaded page, along every sequence of events in
which a `submit` of the form comes while its control is enabled, and an input
leaving an invalid address or a `submit` failing validation comes while the
success message is hidden and the control is enabled, the form is after every
event in exactly one of the states idle, submitting, success and error; the two
messages are then never visible together. -/
theorem one_state_on_admissible_runs (f : FormId) (p : Page) (now : Int) (es : List Event)
    (k : Nat) (ha : admissibleRun f (load now p) es = true) :
    (uiOf f (run (load now p) (es.take k))).stateCount = 1 ∧
      ¬ ((uiOf f (run (load now p) (es.take k))).okHidden = false ∧
        (uiOf f (run (load now p) (es.take k))).errHidden = false) := by
  have h0 : OneStateInv f (load now p) := load_oneState f now p
  have hk : OneStateInv f (run (load now p) (es.take k)) :=
    run_take_oneState f es (load now p) k h0 ha
  exact stateCount_of_inv f _ hk

/-- Witness of C10, amended: the newsletter form is filled in, submitted,
answered by status 200, and filled in again with a valid address. -/
theorem one_state_on_admissible_runs_witness :
    (uiOf .newsletter (run (firstVisit 0)
      [.typeEmail .newsletter "jo@ex.org", .submit .newsletter,
        .settle .newsletter (.response 200 none),
        .typeEmail .newsletter "al@ex.org"])).stateCount = 1 :=
  (one_state_on_admissible_runs .newsletter
    { sessionStorage := [], localStorage := [], newsletter := EmailForm.initial,
      modal := EmailForm.initial, contact := ContactForm.initial, armed := false,
      scheduled := false, showCalls := 0, requests := [], timers := [] } 0
    [.typeEmail .newsletter "jo@ex.org", .submit .newsletter,
      .settle .newsletter (.response 200 none), .typeEmail .newsletter "al@ex.org"] 4
    (by decide)).1

/-! ## Dismissal -/

/-- No event but a load changes `armed`. -/
theorem step_armed (q : Page) (e : Event) (hl : ∀ now : Int, e ≠ .load now) :
    (step q e).armed = q.armed := by
  cases e with
  | load now => exact absurd rfl (hl now)
  | timer =>
    simp only [step, onTimer, showModal]
    split
    · split <;> rfl
    · rfl
  | mouseleave y =>
    simp only [step, onMouseLeave, showModal]
    split
    · split
      · split <;> rfl
      · rfl
    · rfl
  | hidden now =>
    simp only [step, onHidden]
    split <;> rfl
  | typeEmail f v => exact (typeEmail_frame f v q).2.2.1
  | typeName v => rfl
  | typeMessage v => rfl
  | submit f => exact (submit_frame f q).2.2.1
  | settle f o => exact (settle_frame f o q).2.2.1

theorem run_armed (es : List Event) : ∀ q : Page, (∀ now : Int, Event.load now ∉ es) →
    (run q es).armed = q.armed := by
  induction es with
  | nil => intro q _; rfl
  | cons e es ih =>
    intro q hl
    have hne : ∀ now : Int, e ≠ .load now := fun now he =>
      hl now (by rw [he]; exact List.mem_cons_self _ _)
    have h := ih (step q e) (fun now hm => hl now (List.mem_cons_of_mem _ hm))
    exact h.trans (step_armed q e hne)

/-- C11 as stated fails: a page loaded with submitted = "1" returns at line 72
before the `hidden.bs.modal` listener is installed, so a close of the modal on
that page leaves `closedAt` unset. -/
theorem dismissal_as_stated_fails :
    getItem (step (load 100000000
        { sessionStorage := [], localStorage := [(storageKeySubmitted, "1")],
          newsletter := EmailForm.initial, modal := EmailForm.initial,
          contact := ContactForm.initial, armed := false, scheduled := false, showCalls := 0,
          requests := [], timers := [] }) (.hidden 100000500)).localStorage storageKeyClosedAt =
        none ∧
      getItem (step (load 100000000
        { sessionStorage := [], localStorage := [(storageKeySubmitted, "1")],
          newsletter := EmailForm.initial, modal := EmailForm.initial,
          contact := ContactForm.initial, armed := false, scheduled := false, showCalls := 0,
          requests := [], timers := [] }) (.hidden 100000500)).localStorage storageKeyClosedAt ≠
        some (jsString 100000500) := by
  constructor <;> decide

/-- C11, amended. On a page load that runs past the gate, every close of the
modal during that load, whatever the flags have become by then, sets `closedAt`
to `String(now)` and changes no other key of either storage area; on a page load
that returns at the gate a close runs no code of the program. -/
theorem dismissal_on_armed_page (p0 : Page) (t now : Int) (es : List Event)
    (hes : ∀ n : Int, Event.load n ∉ es) :
    (gateOpen p0.sessionStorage p0.localStorage t = true →
      getItem (step (run (load t p0) es) (.hidden now)).localStorage storageKeyClosedAt =
        some (jsString now) ∧
      (∀ k : String, k ≠ storageKeyClosedAt →
        getItem (step (run (load t p0) es) (.hidden now)).localStorage k =
          getItem (run (load t p0) es).localStorage k) ∧
      (step (run (load t p0) es) (.hidden now)).sessionStorage =
        (run (load t p0) es).sessionStorage) ∧
    (gateOpen p0.sessionStorage p0.localStorage t = false →
      step (run (load t p0) es) (.hidden now) = run (load t p0) es) := by
  have harm : (run (load t p0) es).armed = gateOpen p0.sessionStorage p0.localStorage t :=
    (run_armed es (load t p0) hes).trans (load_fields t p0).2.2.2.1
  constructor
  · intro hg
    rw [hg] at harm
    have hls : (step (run (load t p0) es) (.hidden now)).localStorage =
        setItem (run (load t p0) es).localStorage storageKeyClosedAt (jsString now) := by
      simp [step, onHidden, harm]
    refine ⟨?_, ?_, ?_⟩
    · rw [hls]
      exact getItem_setItem_same _ _ _
    · intro k hk
      rw [hls]
      exact getItem_setItem_other _ _ _ k hk
    · simp [step, onHidden, harm]
  · intro hg
    rw [hg] at harm
    simp [step, onHidden, harm]

/-- Witness of C11, amended: on a first visit the modal is shown by the timer
and closed half a second later. -/
theorem dismissal_on_armed_page_witness :
    getItem (step (run (firstVisit 86400000) [.timer]) (.hidden 86400500)).localStorage
        storageKeyClosedAt = some (jsString 86400500) :=
  ((dismissal_on_armed_page
    { sessionStorage := [], localStorage := [], newsletter := EmailForm.initial,
      modal := EmailForm.initial, contact := ContactForm.initial, armed := false,
      scheduled := false, showCalls := 0, requests := [], timers := [] }
    86400000 86400500 [.timer] (by simp)).1 (by decide)).1

/-! ## Messages of the contact form -/

/-- C12 as stated fails: with a name and a valid address and an empty message the
contact handler sets `Please enter a message.`, which is not the text
`Please enter your message.` of the pattern `Please enter your <field>.`. -/
theorem contact_message_text_as_stated_fails :
    (contactSubmit (run (firstVisit 0)
        [.typeName "Jo", .typeEmail .contact "jo@ex.org"])).contact.ui.errText =
        "Please enter a message." ∧
      (contactSubmit (run (firstVisit 0)
        [.typeName "Jo", .typeEmail .contact "jo@ex.org"])).contact.ui.errText ≠
        requiredFieldText "message" := by
  constructor <;> decide

/-- C12, amended. The contact handler checks name, then e-mail, then message
and stops at the first failure: an empty trimmed name sets
`Please enter your name.` (the pattern `Please enter your <field>.`); with a
name, an invalid address sets `Please enter a valid email address.`; with a name
and a valid address, an empty trimmed message sets `Please enter a message.`.
In each case the error element is shown and no request is issued. -/
theorem contact_required_field_messages (p : Page) :
    ((trim p.contact.name.data).isEmpty = true →
      (contactSubmit p).contact.ui.errText = requiredFieldText "name" ∧
      (contactSubmit p).contact.ui.errText = "Please enter your name." ∧
      (contactSubmit p).contact.ui.errHidden = false ∧
      (contactSubmit p).requests = p.requests) ∧
    ((trim p.contact.name.data).isEmpty = false → isValidEmail p.contact.email = false →
      (contactSubmit p).contact.ui.errText = "Please enter a valid email address." ∧
      (contactSubmit p).contact.ui.errHidden = false ∧
      (contactSubmit p).requests = p.requests) ∧
    ((trim p.contact.name.data).isEmpty = false → isValidEmail p.contact.email = true →
      (trim p.contact.message.data).isEmpty = true →
      (contactSubmit p).contact.ui.errText = "Please enter a message." ∧
      (contactSubmit p).contact.ui.errHidden = false ∧
      (contactSubmit p).requests = p.requests) := by
  refine ⟨?_, ?_, ?_⟩
  · intro h1
    have ht : requiredFieldText "name" = "Please enter your name." := by decide
    simp [contactSubmit, h1, ht]
  · intro h1 h2
    simp [contactSubmit, h1, h2]
  · intro h1 h2 h3
    simp [contactSubmit, h1, h2, h3]

/-- Witness of C12, amended: an empty form, a form with a name only, and a form
with a name and a valid address. -/
theorem contact_required_field_messages_witness :
    (contactSubmit (firstVisit 0)).contact.ui.errText = "Please enter your name." ∧
      (contactSubmit (run (firstVisit 0) [.typeName "Jo"])).contact.ui.errText =
        "Please enter a valid email address." ∧
      (contactSubmit (run (firstVisit 0)
        [.typeName "Jo", .typeEmail .contact "jo@ex.org"])).contact.ui.errText =
        "Please enter a message." :=
  ⟨((contact_required_field_messages (firstVisit 0)).1 (by decide)).2.1,
    ((contact_required_field_messages (run (firstVisit 0) [.typeName "Jo"])).2.1
      (by decide) (by decide)).1,
    ((contact_required_field_messages (run (firstVisit 0)
      [.typeName "Jo", .typeEmail .contact "jo@ex.org"])).2.2
      (by decide) (by decide) (by decide)).1⟩

/-! ## A request that succeeds -/

/-- The events of the modal block and the other inputs of the contact form leave
the messages, control and continuations of every form alone. -/
theorem step_other_frame (f : FormId) (p : Page) (e : Event)
    (he : e = .timer ∨ (∃ y, e = .mouseleave y) ∨ (∃ n, e = .hidden n) ∨ (∃ v, e = .typeName v) ∨
      (∃ v, e = .typeMessage v)) :
    uiOf f (step p e) = uiOf f p ∧ pendingOf f (step p e) = pendingOf f p := by
  rcases he with rfl | ⟨y, rfl⟩ | ⟨n, rfl⟩ | ⟨v, rfl⟩ | ⟨v, rfl⟩
  · cases f <;> simp only [step, onTimer, showModal, uiOf, pendingOf] <;> split <;>
      first | (split <;> simp) | simp
  · cases f <;> simp only [step, onMouseLeave, showModal, uiOf, pendingOf] <;> split <;>
      first | (split <;> first | (split <;> simp) | simp) | simp
  · cases f <;> simp only [step, onHidden, uiOf, pendingOf] <;> split <;> simp
  · cases f <;> simp [step, uiOf, pendingOf]
  · cases f <;> simp [step, uiOf, pendingOf]

theorem typeEmail_other (f g : FormId) (v : String) (p : Page) (h : g ≠ f) :
    uiOf f (typeEmail g v p) = uiOf f p ∧ pendingOf f (typeEmail g v p) = pendingOf f p := by
  cases f <;> cases g <;> first
    | exact absurd rfl h
    | simp [typeEmail, uiOf, pendingOf]

theorem typeEmail_same (f : FormId) (v : String) (p : Page) :
    uiOf f (typeEmail f v p) = emailInputListener v (uiOf f p) ∧
      pendingOf f (typeEmail f v p) = pendingOf f p := by
  cases f <;> simp [typeEmail, uiOf, pendingOf]

theorem submit_pending_le (f : FormId) (p : Page) : pendingOf f p ≤ pendingOf f (submit f p) := by
  cases f with
  | newsletter =>
    simp only [submit, newsletterSubmit, pendingOf]
    split <;> simp
  | modal =>
    simp only [submit, modalSubmit, pendingOf]
    split
    · simp
    · split <;> simp
  | contact =>
    simp only [submit, contactSubmit, pendingOf]
    split
    · simp
    · split
      · simp
      · split <;> simp

/-- While the request is awaited the continuation keeps waiting. -/
theorem step_keepsWaiting (f : FormId) (p : Page) (e : Event) (hk : keepsWaiting f e = true) :
    pendingOf f p ≤ pendingOf f (step p e) := by
  cases e with
  | load now => simp [keepsWaiting] at hk
  | timer => exact le_of_eq (step_other_frame f p _ (Or.inl rfl)).2.symm
  | mouseleave y => exact le_of_eq (step_other_frame f p _ (Or.inr (Or.inl ⟨y, rfl⟩))).2.symm
  | hidden n =>
    exact le_of_eq (step_other_frame f p _ (Or.inr (Or.inr (Or.inl ⟨n, rfl⟩)))).2.symm
  | typeName v =>
    exact le_of_eq (step_other_frame f p _ (Or.inr (Or.inr (Or.inr (Or.inl ⟨v, rfl⟩))))).2.symm
  | typeMessage v =>
    exact le_of_eq (step_other_frame f p _ (Or.inr (Or.inr (Or.inr (Or.inr ⟨v, rfl⟩))))).2.symm
  | typeEmail g v =>
    by_cases hg : g = f
    · subst hg
      exact le_of_eq (typeEmail_same g v p).2.symm
    · exact le_of_eq (typeEmail_other f g v p hg).2.symm
  | submit g =>
    by_cases hg : g = f
    · subst hg
      exact submit_pending_le g p
    · exact le_of_eq (submit_other f g p hg).2.symm
  | settle g o =>
    have hg : g ≠ f := by simpa [keepsWaiting] using hk
    exact le_of_eq (settle_other f g o p hg).2.symm

/-- While the request is awaited and no event shows the error message, both
messages stay as the synchronous part of the handler left them. -/
theorem step_leavesErrorHidden (f : FormId) (p : Page) (e : Event)
    (hk : keepsWaiting f e = true) (hq : leavesErrorHidden f e = true)
    (herr : (uiOf f p).errHidden = true) : (uiOf f (step p e)).errHidden = true := by
  cases e with
  | load now => simp [keepsWaiting] at hk
  | timer => rw [(step_other_frame f p _ (Or.inl rfl)).1]; exact herr
  | mouseleave y => rw [(step_other_frame f p _ (Or.inr (Or.inl ⟨y, rfl⟩))).1]; exact herr
  | hidden n =>
    rw [(step_other_frame f p _ (Or.inr (Or.inr (Or.inl ⟨n, rfl⟩)))).1]; exact herr
  | typeName v =>
    rw [(step_other_frame f p _ (Or.inr (Or.inr (Or.inr (Or.inl ⟨v, rfl⟩))))).1]; exact herr
  | typeMessage v =>
    rw [(step_other_frame f p _ (Or.inr (Or.inr (Or.inr (Or.inr ⟨v, rfl⟩))))).1]; exact herr
  | typeEmail g v =>
    by_cases hg : g = f
    · subst hg
      have hv : isValidEmail v = true := by simpa [leavesErrorHidden] using hq
      simp only [step]
      rw [(typeEmail_same g v p).1, (emailInputListener_fields v _).1]
      exact hv
    · simp only [step]
      rw [(typeEmail_other f g v p hg).1]
      exact herr
  | submit g =>
    have hg : g ≠ f := by simpa [leavesErrorHidden] using hq
    simp only [step]
    rw [(submit_other f g p hg).1]
    exact herr
  | settle g o =>
    have hg : g ≠ f := by simpa [keepsWaiting] using hk
    simp only [step]
    rw [(settle_other f g o p hg).1]
    exact herr

theorem run_keepsWaiting (f : FormId) : ∀ (es : List Event) (p : Page),
    es.all (keepsWaiting f) = true → pendingOf f p ≤ pendingOf f (run p es)
  | [], p, _ => le_refl _
  | e :: es, p, h => by
    simp only [List.all_cons, Bool.and_eq_true] at h
    exact le_trans (step_keepsWaiting f p e h.1) (run_keepsWaiting f es (step p e) h.2)

theorem run_leavesErrorHidden (f : FormId) : ∀ (es : List Event) (p : Page),
    es.all (keepsWaiting f) = true → es.all (leavesErrorHidden f) = true →
    (uiOf f p).errHidden = true → (uiOf f (run p es)).errHidden = true
  | [], p, _, _, herr => herr
  | e :: es, p, hk, hq, herr => by
    simp only [List.all_cons, Bool.and_eq_true] at hk hq
    exact run_leavesErrorHidden f es (step p e) hk.2 hq.2
      (step_leavesErrorHidden f p e hk.1 hq.1 herr)

/-- The continuation of a handler on a 2xx status, from any page on which it
waits: it shows the success text and enables the control, and leaves the error
element as it finds it. -/
theorem settle_succeeded (f : FormId) (status : Nat) (json : Option String) (q : Page)
    (h200 : 200 ≤ status) (h299 : status ≤ 299) (hp : 0 < pendingOf f q) :
    (uiOf f (settle f (.response status json) q)).okHidden = false ∧
    (uiOf f (settle f (.response status json) q)).okText = successText f ∧
    (uiOf f (settle f (.response status json) q)).errHidden = (uiOf f q).errHidden ∧
    (uiOf f (settle f (.response status json) q)).disabled = false := by
  have hok : (FetchOutcome.response status json).ok = true := by simp [FetchOutcome.ok, h200, h299]
  obtain ⟨v, hv⟩ := postForm_of_ok _ hok
  cases f with
  | newsletter =>
    have hne : q.newsletter.pending ≠ 0 := by simp only [pendingOf] at hp; omega
    simp [settle, newsletterSettle, uiOf, hne, hv, successText, EmailForm.reset]
  | modal =>
    have hne : q.modal.pending ≠ 0 := by simp only [pendingOf] at hp; omega
    simp [settle, modalSettle, uiOf, hne, hv, successText]
  | contact =>
    have hne : q.contact.pending ≠ 0 := by simp only [pendingOf] at hp; omega
    simp [settle, contactSettle, uiOf, hne, hv, successText, ContactForm.reset]

/-- What the continuation does besides the messages on a 2xx status: the
newsletter and contact forms are reset; the modal form keeps its input, stores
the submitted flag and starts the timer that hides the modal. -/
theorem settle_succeeded_effects (status : Nat) (json : Option String) (q : Page)
    (h200 : 200 ≤ status) (h299 : status ≤ 299) :
    (0 < pendingOf .newsletter q →
      valuesOf .newsletter (settle .newsletter (.response status json) q) = [""]) ∧
    (0 < pendingOf .contact q →
      valuesOf .contact (settle .contact (.response status json) q) = ["", "", ""]) ∧
    (0 < pendingOf .modal q →
      valuesOf .modal (settle .modal (.response status json) q) = valuesOf .modal q ∧
      getItem (settle .modal (.response status json) q).localStorage storageKeySubmitted =
        some "1" ∧
      (settle .modal (.response status json) q).timers = (.hideModal, 1200) :: q.timers) := by
  have hok : (FetchOutcome.response status json).ok = true := by simp [FetchOutcome.ok, h200, h299]
  obtain ⟨v, hv⟩ := postForm_of_ok _ hok
  refine ⟨?_, ?_, ?_⟩
  · intro hp
    have hne : q.newsletter.pending ≠ 0 := by simp only [pendingOf] at hp; omega
    simp [settle, newsletterSettle, valuesOf, hne, hv, EmailForm.reset]
  · intro hp
    have hne : q.contact.pending ≠ 0 := by simp only [pendingOf] at hp; omega
    simp [settle, contactSettle, valuesOf, hne, hv, ContactForm.reset]
  · intro hp
    have hne : q.modal.pending ≠ 0 := by simp only [pendingOf] at hp; omega
    simp [settle, modalSettle, valuesOf, hne, hv, getItem_setItem_same]

/-- C9 as stated fails: on the newsletter form of a first visit a valid address
is submitted, an invalid one is typed while the request is in flight, and the
request is answered by status 200.  The error message is then visible next to
the success message. -/
theorem success_after_invalid_keystroke_shows_error :
    (run (firstVisit 0)
        [.typeEmail .newsletter "jo@ex.org", .submit .newsletter, .typeEmail .newsletter "jo@",
          .settle .newsletter (.response 200 none)]).newsletter.ui =
      { errHidden := false, errText := "Please enter a valid email address.",
        okHidden := false, okText := "Subscribed! Check your inbox.", disabled := false } := by
  decide

/-- C9, amended. A request answered by a 2xx status, with or without a JSON
body: `postForm` resolves (to `success: true` when the body does not parse).
After a submission that passed validation and any events `es` during which the
request is still awaited, the form shows its own success message and the
control is enabled; the newsletter and contact forms have their inputs cleared;
the modal form keeps its input, stores submitted = "1" and schedules
`bsModal.hide()` after 1200 ms.  The continuation leaves the error element as it
finds it, so the error message is hidden when no event of `es` has shown it:
no input leaving an invalid address in the e-mail field of the form, no other
`submit` of the form. -/
theorem successful_request (p : Page) (status : Nat) (json : Option String) (es : List Event)
    (h200 : 200 ≤ status) (h299 : status ≤ 299) :
    postForm (.response status none) = .ok .implicitSuccess ∧
    (∀ f : FormId, hasSubmitListener f p = true → failsValidation f p = false →
      es.all (keepsWaiting f) = true →
      (uiOf f (settle f (.response status json) (run (submit f p) es))).okHidden = false ∧
      (uiOf f (settle f (.response status json) (run (submit f p) es))).okText = successText f ∧
      (uiOf f (settle f (.response status json) (run (submit f p) es))).disabled = false ∧
      (uiOf f (settle f (.response status json) (run (submit f p) es))).errHidden =
        (uiOf f (run (submit f p) es)).errHidden ∧
      (es.all (leavesErrorHidden f) = true →
        (uiOf f (settle f (.response status json) (run (submit f p) es))).errHidden = true)) ∧
    (failsValidation .newsletter p = false → es.all (keepsWaiting .newsletter) = true →
      (settle .newsletter (.response status json)
        (run (submit .newsletter p) es)).newsletter.ui.okText = "Subscribed! Check your inbox." ∧
      valuesOf .newsletter (settle .newsletter (.response status json)
        (run (submit .newsletter p) es)) = [""]) ∧
    (failsValidation .contact p = false → es.all (keepsWaiting .contact) = true →
      (settle .contact (.response status json)
        (run (submit .contact p) es)).contact.ui.okText =
        "Thanks! We will get back to you soon." ∧
      valuesOf .contact (settle .contact (.response status json)
        (run (submit .contact p) es)) = ["", "", ""]) ∧
    (p.armed = true → failsValidation .modal p = false → es.all (keepsWaiting .modal) = true →
      (settle .modal (.response status json) (run (submit .modal p) es)).modal.ui.okText =
        "Thanks! Check your inbox." ∧
      valuesOf .modal (settle .modal (.response status json) (run (submit .modal p) es)) =
        valuesOf .modal (run (submit .modal p) es) ∧
      getItem (settle .modal (.response status json) (run (submit .modal p) es)).localStorage
        storageKeySubmitted = some "1" ∧
      (settle .modal (.response status json) (run (submit .modal p) es)).timers =
        (.hideModal, 1200) :: (run (submit .modal p) es).timers) := by
  have hwait : ∀ f : FormId, hasSubmitListener f p = true → failsValidation f p = false →
      es.all (keepsWaiting f) = true → 0 < pendingOf f (run (submit f p) es) := by
    intro f hl hv hk
    have h1 := (submit_valid f p hl hv).2.2.2.1
    have h2 := run_keepsWaiting f es (submit f p) hk
    omega
  refine ⟨by simp [postForm, FetchOutcome.ok, h200, h299], ?_, ?_, ?_, ?_⟩
  · intro f hl hv hk
    obtain ⟨s1, s2, s3, s4⟩ :=
      settle_succeeded f status json (run (submit f p) es) h200 h299 (hwait f hl hv hk)
    refine ⟨s1, s2, s4, s3, ?_⟩
    intro hq
    rw [s3]
    exact run_leavesErrorHidden f es (submit f p) hk hq (submit_valid f p hl hv).2.1
  · intro hv hk
    have hp := hwait .newsletter rfl hv hk
    obtain ⟨_, s2, _, _⟩ :=
      settle_succeeded .newsletter status json (run (submit .newsletter p) es) h200 h299 hp
    exact ⟨s2, (settle_succeeded_effects status json _ h200 h299).1 hp⟩
  · intro hv hk
    have hp := hwait .contact rfl hv hk
    obtain ⟨_, s2, _, _⟩ :=
      settle_succeeded .contact status json (run (submit .contact p) es) h200 h299 hp
    exact ⟨s2, (settle_succeeded_effects status json _ h200 h299).2.1 hp⟩
  · intro ha hv hk
    have hp := hwait .modal (by simpa [hasSubmitListener] using ha) hv hk
    obtain ⟨_, s2, _, _⟩ :=
      settle_succeeded .modal status json (run (submit .modal p) es) h200 h299 hp
    obtain ⟨m1, m2, m3⟩ := (settle_succeeded_effects status json _ h200 h299).2.2 hp
    exact ⟨s2, m1, m2, m3⟩

/-- Witness of C9, amended: the modal form of a first visit, answered by status
204 without a body after the pointer has left the page; the newsletter form,
answered by status 200 after a valid address was typed over the first one. -/
theorem successful_request_witness :
    (settle .modal (.response 204 none) (run (submit .modal
      (step (firstVisit 86400000) (.typeEmail .modal "jo@ex.org")))
      [.mouseleave 0])).modal.ui.okText = "Thanks! Check your inbox." ∧
      (uiOf .newsletter (settle .newsletter (.response 200 (some "null")) (run (submit .newsletter
        (step (firstVisit 0) (.typeEmail .newsletter "jo@ex.org")))
        [.typeEmail .newsletter "al@ex.org"]))).errHidden = true :=
  ⟨((successful_request (step (firstVisit 86400000) (.typeEmail .modal "jo@ex.org")) 204 none
      [.mouseleave 0] (by decide) (by decide)).2.2.2.2 (by decide) (by decide) (by decide)).1,
    ((successful_request (step (firstVisit 0) (.typeEmail .newsletter "jo@ex.org")) 200
      (some "null") [.typeEmail .newsletter "al@ex.org"] (by decide) (by decide)).2.1 .newsletter
      (by decide) (by decide) (by decide)).2.2.2.2 (by decide)⟩

end Provokely
